import Mathlib

/-!
A verification development for the RoboBlocks visual-programming compiler.

The main subject is the graph-lowering pass implemented in
`src/pyqt_app/resources/robot_generator.js`: it walks a Blockly workspace
(blocks linked by "next" pointers, with named value/statement inputs and
string-valued fields) and produces an IR `Document` consisting of metadata
plus an ordered sequence of statement nodes.

The embedding models Blockly blocks as a mutual inductive family
(`Block`/`Inputs`/`Chain`), and the recursive lowering functions as
fuel-indexed structurally recursive functions.  Fuel is an artifact of the
embedding only: every function is monotone in fuel (proved below), and any
fuel larger than the number of recursive calls the JavaScript would make
reproduces the JavaScript behaviour exactly.  Running out of fuel is
reported through the distinguished error `LowerError.fuelExhausted`,
kept separate from `LowerError.thrown`, which models a JavaScript
`throw new Error(...)`.

Numeric field values: the editor's numeric fields hold decimal integer
strings, so JavaScript `Number(...)` is modelled on that domain as integer
parsing (`jsNumber`); a non-numeric string (JavaScript `NaN`) is mapped to
0, which agrees with JavaScript on every truthiness test performed by the
generator (both `NaN` and `0` are falsy).
-/

namespace RoboBlocks

/-- Models the JavaScript expression `v || dflt` for a nullable string `v`:
`null`/`undefined` and the empty string are falsy. -/
def jsOr (v : Option String) (dflt : String) : String :=
  match v with
  | some s => if s = "" then dflt else s
  | none => dflt

/-- Accumulate a decimal digit string; `none` on any non-digit. -/
def decDigits : List Char → Nat → Option Nat
  | [], acc => some acc
  | c :: cs, acc =>
    if 48 <= c.toNat && c.toNat <= 57 then decDigits cs (acc * 10 + (c.toNat - 48))
    else none

/-- JavaScript `Number(s)` restricted to optional-sign decimal integer
strings (the only numeric field contents the editor produces); any other
string (which JavaScript would turn into `NaN`) is mapped to 0, which
agrees with `NaN` on every truthiness test the generator performs. -/
def jsNumber (s : String) : Int :=
  match s.data with
  | '-' :: cs =>
    (match decDigits cs 0 with
     | some n => -(n : Int)
     | none => 0)
  | cs => ((decDigits cs 0).getD 0 : Nat)

/-- JavaScript lowercasing on the ASCII field values the generator
lowercases. -/
def jsToLower (s : String) : String :=
  String.mk (s.data.map Char.toLower)

/-- Models `Number(v || dflt)` where `dflt` is a numeric literal in the
source: a missing or empty field falls back to the literal default. -/
def jsNumberOr (v : Option String) (dflt : Int) : Int :=
  match v with
  | some s => if s = "" then dflt else jsNumber s
  | none => dflt

mutual
/-- A Blockly block: custom `data` slot, workspace id, block type,
string-valued fields, named inputs, and the "next statement" pointer. -/
inductive Block : Type where
  | mk (data : Option String) (id : String) (btype : String)
       (fields : List (String × String)) (inputs : Inputs) (next : Chain)

/-- The named inputs of a block.  An input that exists but has no block
connected to it carries `Chain.empty`. -/
inductive Inputs : Type where
  | nil
  | cons (name : String) (target : Chain) (rest : Inputs)

/-- A nullable block pointer (the head of a "next statement" chain, or the
block connected to an input). -/
inductive Chain : Type where
  | empty
  | block (b : Block)
end

def Block.data : Block → Option String
  | .mk d _ _ _ _ _ => d

def Block.id : Block → String
  | .mk _ i _ _ _ _ => i

def Block.btype : Block → String
  | .mk _ _ t _ _ _ => t

def Block.fields : Block → List (String × String)
  | .mk _ _ _ f _ _ => f

def Block.inputs : Block → Inputs
  | .mk _ _ _ _ ins _ => ins

def Block.next : Block → Chain
  | .mk _ _ _ _ _ nx => nx

/-- `block.getFieldValue(name)`: the field's value, or `null` when the
block has no such field. -/
def Block.getFieldValue (b : Block) (k : String) : Option String :=
  b.fields.lookup k

/-- Look up the block connected to a named input; both a missing input and
an unconnected input yield `Chain.empty`, matching
`block.getInputTargetBlock(name)` returning `null` in both cases. -/
def Inputs.find : Inputs → String → Chain
  | .nil, _ => .empty
  | .cons n t rest, k => if n = k then t else rest.find k

/-- `block.getInput(name)` truthiness: whether the named input exists. -/
def Inputs.has : Inputs → String → Bool
  | .nil, _ => false
  | .cons n _ rest, k => n = k || rest.has k

def Inputs.count : Inputs → Nat
  | .nil => 0
  | .cons _ _ rest => rest.count + 1

def Block.getInputTargetBlock (b : Block) (k : String) : Chain :=
  b.inputs.find k

def Block.hasInput (b : Block) (k : String) : Bool :=
  b.inputs.has k

/-- Value of a lowered command parameter: string, number, boolean,
cartesian point object `{x,y,z,rx,ry,rz}`, or numeric array. -/
inductive PValue : Type where
  | s (v : String)
  | n (v : Int)
  | b (v : Bool)
  | pt (x y z rx ry rz : Int)
  | arr (vs : List Int)
deriving DecidableEq

/-- Lowered IR expressions, one constructor per `expr_type` the generator
emits. -/
inductive Expr : Type where
  | literal_number (value : Int)
  | literal_boolean (value : Bool)
  | literal_null
  | comparison (op : String) (left right : Expr)
  | logic_binary (op : String) (left right : Expr)
  | logic_not (argument : Expr)
  | ternary (condition when_true when_false : Expr)
  | arithmetic (op : String) (left right : Expr)
  | math_single (op : String) (argument : Expr)
  | math_trig (op : String) (argument : Expr)
  | math_constant (constant : String)
  | math_round (op : String) (argument : Expr)
  | math_modulo (left right : Expr)
  | math_constrain (value low high : Expr)
  | math_random_int (low high : Expr)
  | math_random_float
deriving DecidableEq

/-- Lowered IR statement nodes, one constructor per `node_type`.  A
command node's `parameters` is `none` when the JavaScript object carries
no `parameters` key at all. -/
inductive Node : Type where
  | command (id : String) (command : String)
      (parameters : Option (List (String × PValue)))
  | ifNode (id : String) (branches : List (Expr × List Node))
      (else_branch : Option (List Node))
  | repeatNode (id : String) (count : Expr) (body : List Node)
  | whileNode (id : String) (mode : String) (condition : Expr)
      (body : List Node)
  | forRange (id : String) (varName : String) (from_ to_ by_ : Expr)
      (body : List Node)
  | forEach (id : String) (varName : String) (collection : Expr)
      (body : List Node)
  | flow (id : String) (kind : String)

/-- The id carried by a lowered statement node. -/
def Node.nodeId : Node → String
  | .command i _ _ => i
  | .ifNode i _ _ => i
  | .repeatNode i _ _ => i
  | .whileNode i _ _ _ => i
  | .forRange i _ _ _ _ _ => i
  | .forEach i _ _ _ => i
  | .flow i _ => i

/-- Document metadata collected from `set_metadata` blocks.  All fields
start out absent (the JavaScript `metadata` object starts as `{}`).
`ns` stands for the `namespace` key. -/
structure Metadata where
  robot_brand : Option String := none
  ns : Option String := none
  class_name : Option String := none
  method_name : Option String := none
  attach_console_logger : Option Bool := none
deriving DecidableEq

/-- The lowered document: `{version: '1.0', metadata, sequence}`. -/
structure Document where
  version : String
  metadata : Metadata
  sequence : List Node

/-- State threaded through lowering: the metadata object being filled in,
the `console.warn` diagnostics issued so far, and the next index into the
fresh-id supply (modelling `Blockly.utils.idGenerator.genUid()`). -/
structure LowerState where
  metadata : Metadata
  warnings : List String
  nextUid : Nat

/-- `thrown m` models an uncaught JavaScript `throw new Error(m)`;
`fuelExhausted` is the out-of-fuel artifact of the embedding and never
occurs when the fuel exceeds the number of recursive calls made. -/
inductive LowerError : Type where
  | thrown (message : String)
  | fuelExhausted
deriving DecidableEq

/-- `applyMetadata`: overwrite every metadata field from the
`set_metadata` block's fields (the previous metadata value is ignored
entirely, so the last block visited wins). -/
def applyMetadata (b : Block) (_m : Metadata) : Metadata :=
  { robot_brand := some (jsOr (b.getFieldValue "ROBOT_BRAND") "default")
    ns := some (jsOr (b.getFieldValue "NAMESPACE") "GeneratedWorkflows")
    class_name := some (jsOr (b.getFieldValue "CLASS_NAME") "RobotProgram")
    method_name := some (jsOr (b.getFieldValue "METHOD_NAME") "Run")
    attach_console_logger := some (b.getFieldValue "ATTACH_LOGGER" = some "TRUE") }

/-- The `block.id || genUid()` part of `blockId`. -/
def blockIdFallback (g : Nat → String) (b : Block) (st : LowerState) :
    String × LowerState :=
  if b.id = "" then (g st.nextUid, { st with nextUid := st.nextUid + 1 })
  else (b.id, st)

/-- `blockId(block)`: `block.data || block.id || genUid()`.  The supply
`g` enumerates the ids `genUid` would return on successive calls. -/
def blockId (g : Nat → String) (b : Block) (st : LowerState) :
    String × LowerState :=
  match b.data with
  | some d => if d = "" then blockIdFallback g b st else (d, st)
  | none => blockIdFallback g b st

/-- The `commandsWithoutParameters` set. -/
def commandsWithoutParameters : List String :=
  ["disconnect_robot", "power_on_servo", "power_off_servo",
   "grab", "release", "print_numbers"]

/-- The `parameterReaders` table: for each command block type, the fixed
field-to-parameter record extraction, in the source's key order. -/
def parameterReaders (t : String) : Option (Block → List (String × PValue)) :=
  if t = "connect_robot" then some (fun b =>
    [("ip_address", .s (jsOr (b.getFieldValue "IP") "192.168.0.10")),
     ("port", .n (jsNumberOr (b.getFieldValue "PORT") 60008)),
     ("timeout_ms", .n (jsNumberOr (b.getFieldValue "TIMEOUT") 0))])
  else if t = "set_speed" then some (fun b =>
    [("percentage", .n (jsNumberOr (b.getFieldValue "PERCENTAGE") 0))])
  else if t = "set_acceleration" then some (fun b =>
    [("percentage", .n (jsNumberOr (b.getFieldValue "PERCENTAGE") 0))])
  else if t = "move_to" then some (fun b =>
    [("x", .n (jsNumberOr (b.getFieldValue "X") 0)),
     ("y", .n (jsNumberOr (b.getFieldValue "Y") 0)),
     ("z", .n (jsNumberOr (b.getFieldValue "Z") 0)),
     ("speed_percentage", .n (jsNumberOr (b.getFieldValue "SPEED") 0))])
  else if t = "move_joint" then some (fun b =>
    [("j1", .n (jsNumberOr (b.getFieldValue "J1") 0)),
     ("j2", .n (jsNumberOr (b.getFieldValue "J2") 0)),
     ("j3", .n (jsNumberOr (b.getFieldValue "J3") 0)),
     ("j4", .n (jsNumberOr (b.getFieldValue "J4") 0)),
     ("j5", .n (jsNumberOr (b.getFieldValue "J5") 0)),
     ("j6", .n (jsNumberOr (b.getFieldValue "J6") 0)),
     ("speed_percentage", .n (jsNumberOr (b.getFieldValue "SPEED") 0))])
  else if t = "move_linear" then some (fun b =>
    [("x", .n (jsNumberOr (b.getFieldValue "X") 0)),
     ("y", .n (jsNumberOr (b.getFieldValue "Y") 0)),
     ("z", .n (jsNumberOr (b.getFieldValue "Z") 0)),
     ("rx", .n (jsNumberOr (b.getFieldValue "RX") 0)),
     ("ry", .n (jsNumberOr (b.getFieldValue "RY") 0)),
     ("rz", .n (jsNumberOr (b.getFieldValue "RZ") 0)),
     ("speed_percentage", .n (jsNumberOr (b.getFieldValue "SPEED") 0))])
  else if t = "move_circular" then some (fun b =>
    [("via_point", .pt (jsNumberOr (b.getFieldValue "VX") 0)
        (jsNumberOr (b.getFieldValue "VY") 0)
        (jsNumberOr (b.getFieldValue "VZ") 0)
        (jsNumberOr (b.getFieldValue "VRX") 0)
        (jsNumberOr (b.getFieldValue "VRY") 0)
        (jsNumberOr (b.getFieldValue "VRZ") 0)),
     ("end_point", .pt (jsNumberOr (b.getFieldValue "EX") 0)
        (jsNumberOr (b.getFieldValue "EY") 0)
        (jsNumberOr (b.getFieldValue "EZ") 0)
        (jsNumberOr (b.getFieldValue "ERX") 0)
        (jsNumberOr (b.getFieldValue "ERY") 0)
        (jsNumberOr (b.getFieldValue "ERZ") 0))])
  else if t = "stop_motion" then some (fun b =>
    let stop := jsOr (b.getFieldValue "STOP_TYPE") ""
    if stop = "" then [] else [("stop_type", .s stop)])
  else if t = "wait_for_move_finish" then some (fun b =>
    let timeout := jsNumberOr (b.getFieldValue "TIMEOUT") 0
    if timeout = 0 then [] else [("timeout_ms", .n timeout)])
  else if t = "set_tool_coordinate" then some (fun b =>
    [("tool_data", .arr (["TX", "TY", "TZ", "TRX", "TRY", "TRZ"].map
        (fun k => jsNumberOr (b.getFieldValue k) 0)))])
  else if t = "set_user_coordinate" then some (fun b =>
    [("user_data", .arr (["UX", "UY", "UZ", "URX", "URY", "URZ"].map
        (fun k => jsNumberOr (b.getFieldValue k) 0)))])
  else if t = "get_current_joint_position" then some (fun b =>
    let store := jsOr (b.getFieldValue "STORE") ""
    if store = "" then [] else [("store_as", .s store)])
  else if t = "get_current_cartesian_position" then some (fun b =>
    let store := jsOr (b.getFieldValue "STORE") ""
    if store = "" then [] else [("store_as", .s store)])
  else if t = "get_robot_status" then some (fun b =>
    let store := jsOr (b.getFieldValue "STORE") ""
    if store = "" then [] else [("store_as", .s store)])
  else if t = "set_digital_output" then some (fun b =>
    [("port", .n (jsNumberOr (b.getFieldValue "PORT") 0)),
     ("value", .b (jsOr (b.getFieldValue "VALUE") "FALSE" = "TRUE"))])
  else if t = "get_digital_input" then some (fun b =>
    let store := jsOr (b.getFieldValue "STORE") ""
    [("port", .n (jsNumberOr (b.getFieldValue "PORT") 0))] ++
      (if store = "" then [] else [("store_as", .s store)]))
  else none

/-- `convertCommandBlock`: read the fixed parameter record for the block
type, and emit a command node; commands in `commandsWithoutParameters`
get no `parameters` key at all. -/
def convertCommandBlock (g : Nat → String) (b : Block) (st : LowerState) :
    Node × LowerState :=
  let params := match parameterReaders b.btype with
    | some reader => reader b
    | none => []
  let (nid, st1) := blockId g b st
  if commandsWithoutParameters.contains b.btype then
    (Node.command nid b.btype none, st1)
  else
    (Node.command nid b.btype (some params), st1)

/-- `convertFlowStatement`: break/continue. -/
def convertFlowStatement (g : Nat → String) (b : Block) (st : LowerState) :
    Node × LowerState :=
  let kind := jsToLower (jsOr (b.getFieldValue "FLOW") "BREAK")
  let (nid, st1) := blockId g b st
  (Node.flow nid kind, st1)

/-- One step of the `while (block.getInput('IF' + index))` scan. -/
def ifBranchCountAux (b : Block) : Nat → Nat → Nat
  | 0, i => i
  | fuel + 1, i =>
    if b.hasInput ("IF" ++ toString i) then ifBranchCountAux b fuel (i + 1)
    else i

/-- Number of `(condition, body)` branch pairs of a `controls_if` block:
the first index `i` for which the input `IF i` does not exist.  A block
has `b.inputs.count` distinct named inputs, so the scan always exits
within that many steps; the fuel `b.inputs.count + 1` therefore
reproduces the unbounded JavaScript loop exactly. -/
def ifBranchCount (b : Block) : Nat :=
  ifBranchCountAux b (b.inputs.count + 1) 0

/-- The lowering rule selected by an expression block's `type`: one
constructor per arm of the source's `switch (block.type)` in
`expressionFrom`, plus the `default` (throwing) arm. -/
inductive ExprKind : Type where
  | number | boolean | compare | operation | negate | nullLit | ternary
  | arith | single | trig | constant | round | modulo | constrain
  | randomInt | randomFloat | unsupported
deriving DecidableEq

/-- Which `switch` arm of `expressionFrom` handles block type `t`. -/
def exprKind (t : String) : ExprKind :=
  if t = "math_number" then .number
  else if t = "logic_boolean" then .boolean
  else if t = "logic_compare" then .compare
  else if t = "logic_operation" then .operation
  else if t = "logic_negate" then .negate
  else if t = "logic_null" then .nullLit
  else if t = "logic_ternary" then .ternary
  else if t = "math_arithmetic" then .arith
  else if t = "math_single" then .single
  else if t = "math_trig" then .trig
  else if t = "math_constant" then .constant
  else if t = "math_round" then .round
  else if t = "math_modulo" then .modulo
  else if t = "math_constrain" then .constrain
  else if t = "math_random_int" then .randomInt
  else if t = "math_random_float" then .randomFloat
  else .unsupported

/-- The dispatch arm of `convertStatementBlock` handling a statement
block type. -/
inductive StmtKind : Type where
  | ifStmt | repeatStmt | whileStmt | forStmt | flowStmt | command
  | unsupported
deriving DecidableEq

/-- Which dispatch arm of `convertStatementBlock` handles block type
`t`: the same conditions, in the same order, as the source's if-chain
(`controls_for` and `controls_forEach` share one arm; a command arm is
taken when a parameter reader exists or the type is in
`commandsWithoutParameters`). -/
def stmtKind (t : String) : StmtKind :=
  if t = "controls_if" then .ifStmt
  else if t = "controls_repeat_ext" then .repeatStmt
  else if t = "controls_whileUntil" then .whileStmt
  else if t = "controls_for" ∨ t = "controls_forEach" then .forStmt
  else if t = "controls_flow_statements" then .flowStmt
  else if (parameterReaders t).isSome
      || commandsWithoutParameters.contains t then .command
  else .unsupported

mutual
/-- `expressionFrom(block)`: lower an expression sub-graph.  An absent
block (`null`) becomes a zero literal; an unsupported block type is an
uncaught `throw`. -/
def expressionFrom : Nat → Chain → Except LowerError Expr
  | _, .empty => .ok (.literal_number 0)
  | 0, .block _ => .error .fuelExhausted
  | fuel + 1, .block b =>
    match exprKind b.btype with
    | .number =>
      .ok (.literal_number (jsNumberOr (b.getFieldValue "NUM") 0))
    | .boolean =>
      .ok (.literal_boolean (b.getFieldValue "BOOL" = some "TRUE"))
    | .compare => do
      let l ← expressionFrom fuel (b.getInputTargetBlock "A")
      let r ← expressionFrom fuel (b.getInputTargetBlock "B")
      .ok (.comparison (jsToLower (jsOr (b.getFieldValue "OP") "EQ")) l r)
    | .operation => do
      let l ← expressionFrom fuel (b.getInputTargetBlock "A")
      let r ← expressionFrom fuel (b.getInputTargetBlock "B")
      .ok (.logic_binary (jsToLower (jsOr (b.getFieldValue "OP") "AND")) l r)
    | .negate => do
      let a ← expressionFrom fuel (b.getInputTargetBlock "BOOL")
      .ok (.logic_not a)
    | .nullLit =>
      .ok .literal_null
    | .ternary => do
      let c ← expressionFrom fuel (b.getInputTargetBlock "IF")
      let t ← expressionFrom fuel (b.getInputTargetBlock "THEN")
      let e ← expressionFrom fuel (b.getInputTargetBlock "ELSE")
      .ok (.ternary c t e)
    | .arith => do
      let l ← expressionFrom fuel (b.getInputTargetBlock "A")
      let r ← expressionFrom fuel (b.getInputTargetBlock "B")
      .ok (.arithmetic (jsToLower (jsOr (b.getFieldValue "OP") "ADD")) l r)
    | .single => do
      let a ← expressionFrom fuel (b.getInputTargetBlock "NUM")
      .ok (.math_single (jsToLower (jsOr (b.getFieldValue "OP") "ROOT")) a)
    | .trig => do
      let a ← expressionFrom fuel (b.getInputTargetBlock "NUM")
      .ok (.math_trig (jsToLower (jsOr (b.getFieldValue "OP") "SIN")) a)
    | .constant =>
      .ok (.math_constant (jsToLower (jsOr (b.getFieldValue "CONSTANT") "PI")))
    | .round => do
      let a ← expressionFrom fuel (b.getInputTargetBlock "NUM")
      .ok (.math_round (jsToLower (jsOr (b.getFieldValue "OP") "ROUND")) a)
    | .modulo => do
      let l ← expressionFrom fuel (b.getInputTargetBlock "DIVIDEND")
      let r ← expressionFrom fuel (b.getInputTargetBlock "DIVISOR")
      .ok (.math_modulo l r)
    | .constrain => do
      let v ← expressionFrom fuel (b.getInputTargetBlock "VALUE")
      let lo ← expressionFrom fuel (b.getInputTargetBlock "LOW")
      let hi ← expressionFrom fuel (b.getInputTargetBlock "HIGH")
      .ok (.math_constrain v lo hi)
    | .randomInt => do
      let lo ← expressionFrom fuel (b.getInputTargetBlock "FROM")
      let hi ← expressionFrom fuel (b.getInputTargetBlock "TO")
      .ok (.math_random_int lo hi)
    | .randomFloat =>
      .ok .math_random_float
    | .unsupported =>
      .error (.thrown ("Unsupported expression block: " ++ b.btype))

/-- `sequenceFrom(block, metadata)`: walk the "next statement" chain,
diverting `set_metadata` blocks into the metadata object and
concatenating every other block's converted nodes in chain order. -/
def sequenceFrom (g : Nat → String) :
    Nat → Chain → LowerState → Except LowerError (List Node × LowerState)
  | _, .empty, st => .ok ([], st)
  | 0, .block _, _ => .error .fuelExhausted
  | fuel + 1, .block b, st =>
    if b.btype = "set_metadata" then
      sequenceFrom g fuel b.next { st with metadata := applyMetadata b st.metadata }
    else do
      let (ns, st1) ← convertStatementBlock g fuel b st
      let (ms, st2) ← sequenceFrom g fuel b.next st1
      .ok (ns ++ ms, st2)

/-- `convertStatementBlock`: dispatch on the block type; a type with no
lowering rule contributes no node and records a `console.warn`
diagnostic. -/
def convertStatementBlock (g : Nat → String) :
    Nat → Block → LowerState → Except LowerError (List Node × LowerState)
  | 0, _, _ => .error .fuelExhausted
  | fuel + 1, b, st =>
    match stmtKind b.btype with
    | .ifStmt => do
      let (n, st1) ← convertIfBlock g fuel b st
      .ok ([n], st1)
    | .repeatStmt => do
      let (n, st1) ← convertRepeatBlock g fuel b st
      .ok ([n], st1)
    | .whileStmt => do
      let (n, st1) ← convertWhileBlock g fuel b st
      .ok ([n], st1)
    | .forStmt => do
      let (n, st1) ← convertForBlock g fuel b st
      .ok ([n], st1)
    | .flowStmt =>
      let (n, st1) := convertFlowStatement g b st
      .ok ([n], st1)
    | .command =>
      let (n, st1) := convertCommandBlock g b st
      .ok ([n], st1)
    | .unsupported =>
      .ok ([], { st with warnings := st.warnings ++
        ["Ignoring unsupported statement block: " ++ b.btype] })

/-- `convertIfBlock`: N `(condition, body)` branch pairs, then the
optional else body (dropped when empty), then the node id. -/
def convertIfBlock (g : Nat → String) :
    Nat → Block → LowerState → Except LowerError (Node × LowerState)
  | 0, _, _ => .error .fuelExhausted
  | fuel + 1, b, st => do
    let (branches, st1) ← convertIfBranches g fuel b 0 (ifBranchCount b) st
    let (elseBody, st2) ← sequenceFrom g fuel (b.getInputTargetBlock "ELSE") st1
    let (nid, st3) := blockId g b st2
    .ok (.ifNode nid branches (if elseBody.isEmpty then none else some elseBody),
      st3)

/-- The branch-collecting loop of `convertIfBlock`: `k` further branch
pairs starting at branch index `i`. -/
def convertIfBranches (g : Nat → String) :
    Nat → Block → Nat → Nat → LowerState →
    Except LowerError (List (Expr × List Node) × LowerState)
  | _, _, _, 0, st => .ok ([], st)
  | 0, _, _, _ + 1, _ => .error .fuelExhausted
  | fuel + 1, b, i, k + 1, st => do
    let cond ← expressionFrom fuel (b.getInputTargetBlock ("IF" ++ toString i))
    let (body, st1) ←
      sequenceFrom g fuel (b.getInputTargetBlock ("DO" ++ toString i)) st
    let (rest, st2) ← convertIfBranches g fuel b (i + 1) k st1
    .ok ((cond, body) :: rest, st2)

/-- `convertRepeatBlock`. -/
def convertRepeatBlock (g : Nat → String) :
    Nat → Block → LowerState → Except LowerError (Node × LowerState)
  | 0, _, _ => .error .fuelExhausted
  | fuel + 1, b, st => do
    let (nid, st1) := blockId g b st
    let count ← expressionFrom fuel (b.getInputTargetBlock "TIMES")
    let (body, st2) ← sequenceFrom g fuel (b.getInputTargetBlock "DO") st1
    .ok (.repeatNode nid count body, st2)

/-- `convertWhileBlock`: the mode flag is `'until'` exactly when the MODE
field is `'UNTIL'`, and the condition is lowered unchanged. -/
def convertWhileBlock (g : Nat → String) :
    Nat → Block → LowerState → Except LowerError (Node × LowerState)
  | 0, _, _ => .error .fuelExhausted
  | fuel + 1, b, st => do
    let mode := if b.getFieldValue "MODE" = some "UNTIL" then "until" else "while"
    let (nid, st1) := blockId g b st
    let cond ← expressionFrom fuel (b.getInputTargetBlock "BOOL")
    let (body, st2) ← sequenceFrom g fuel (b.getInputTargetBlock "DO") st1
    .ok (.whileNode nid mode cond body, st2)

/-- `convertForBlock`: `controls_for` yields a `for_range` node,
`controls_forEach` a `for_each` node. -/
def convertForBlock (g : Nat → String) :
    Nat → Block → LowerState → Except LowerError (Node × LowerState)
  | 0, _, _ => .error .fuelExhausted
  | fuel + 1, b, st =>
    if b.btype = "controls_for" then do
      let (nid, st1) := blockId g b st
      let lo ← expressionFrom fuel (b.getInputTargetBlock "FROM")
      let hi ← expressionFrom fuel (b.getInputTargetBlock "TO")
      let step ← expressionFrom fuel (b.getInputTargetBlock "BY")
      let (body, st2) ← sequenceFrom g fuel (b.getInputTargetBlock "DO") st1
      .ok (.forRange nid (jsOr (b.getFieldValue "VAR") "i") lo hi step body, st2)
    else do
      let (nid, st1) := blockId g b st
      let coll ← expressionFrom fuel (b.getInputTargetBlock "LIST")
      let (body, st2) ← sequenceFrom g fuel (b.getInputTargetBlock "DO") st1
      .ok (.forEach nid (jsOr (b.getFieldValue "VAR") "item") coll body, st2)
end

/-- The `topBlocks.forEach(...)` loop of `workspaceToDocument`: lower
each top-level chain in order into one flat sequence. -/
def lowerTopBlocks (g : Nat → String) (fuel : Nat) :
    List Block → LowerState → Except LowerError (List Node × LowerState)
  | [], st => .ok ([], st)
  | b :: rest, st => do
    let (ns, st1) ← sequenceFrom g fuel (.block b) st
    let (ms, st2) ← lowerTopBlocks g fuel rest st1
    .ok (ns ++ ms, st2)

/-- `Generator.workspaceToDocument(workspace)`: lower the ordered
top-level blocks of the workspace into a fresh document, starting from an
empty metadata object.  The result also carries the `console.warn`
diagnostics issued during lowering. -/
def workspaceToDocument (g : Nat → String) (fuel : Nat) (ws : List Block) :
    Except LowerError (Document × List String) :=
  match lowerTopBlocks g fuel ws { metadata := {}, warnings := [], nextUid := 0 } with
  | .ok (ns, st) =>
    .ok ({ version := "1.0", metadata := st.metadata, sequence := ns }, st.warnings)
  | .error e => .error e

mutual
/-- The `set_metadata` blocks a lowering run visits, in visit order.
The fuel discipline mirrors `sequenceFrom` exactly, so whenever a
lowering run completes without exhausting its fuel, `metaChain` at the
same fuel lists precisely the metadata blocks that run diverted. -/
def metaChain : Nat → Chain → List Block
  | _, .empty => []
  | 0, .block _ => []
  | fuel + 1, .block b =>
    if b.btype = "set_metadata" then b :: metaChain fuel b.next
    else metaStmt fuel b ++ metaChain fuel b.next

/-- Metadata blocks visited inside one statement block's nested bodies. -/
def metaStmt : Nat → Block → List Block
  | 0, _ => []
  | fuel + 1, b =>
    match stmtKind b.btype with
    | .ifStmt => metaIf fuel b
    | .repeatStmt => metaBody fuel b
    | .whileStmt => metaBody fuel b
    | .forStmt => metaBody fuel b
    | _ => []

/-- Metadata blocks visited by `convertIfBlock`. -/
def metaIf : Nat → Block → List Block
  | 0, _ => []
  | fuel + 1, b =>
    metaBranches fuel b 0 (ifBranchCount b) ++
      metaChain fuel (b.getInputTargetBlock "ELSE")

/-- Metadata blocks visited by `convertIfBranches`. -/
def metaBranches : Nat → Block → Nat → Nat → List Block
  | _, _, _, 0 => []
  | 0, _, _, _ + 1 => []
  | fuel + 1, b, i, k + 1 =>
    metaChain fuel (b.getInputTargetBlock ("DO" ++ toString i)) ++
      metaBranches fuel b (i + 1) k

/-- Metadata blocks visited inside a loop block's `DO` body. -/
def metaBody : Nat → Block → List Block
  | 0, _ => []
  | fuel + 1, b => metaChain fuel (b.getInputTargetBlock "DO")
end

/-- Metadata blocks visited across the workspace's top-level chains. -/
def metaTop (fuel : Nat) : List Block → List Block
  | [] => []
  | b :: rest => metaChain fuel (.block b) ++ metaTop fuel rest

/-- Apply a list of `set_metadata` blocks in visit order; because
`applyMetadata` overwrites every field, only the last block matters. -/
def applyMetaList (l : List Block) (m : Metadata) : Metadata :=
  l.foldl (fun acc b => applyMetadata b acc) m

mutual
/-- Erase every `set_metadata` block from a chain and (recursively) from
every input sub-chain and every "next" chain below it: the spec-side
"graph without its metadata nodes". -/
def rmChain : Chain → Chain
  | .empty => .empty
  | .block (.mk d i t f ins nx) =>
    if t = "set_metadata" then rmChain nx
    else .block (.mk d i t f (rmInputs ins) (rmChain nx))

/-- Erase `set_metadata` blocks from every chain hanging off a block's
inputs. -/
def rmInputs : Inputs → Inputs
  | .nil => .nil
  | .cons n tg rest => .cons n (rmChain tg) (rmInputs rest)
end

/-- Erase `set_metadata` blocks below a single block (its inputs and its
"next" chain); the block itself is assumed not to be one. -/
def rmBlock : Block → Block
  | .mk d i t f ins nx => .mk d i t f (rmInputs ins) (rmChain nx)

/-- Erase every `set_metadata` block from a workspace's top-level
chains; a top-level chain whose blocks were all metadata blocks
disappears entirely. -/
def rmTop : List Block → List Block
  | [] => []
  | b :: rest =>
    match rmChain (.block b) with
    | .empty => rmTop rest
    | .block b2 => b2 :: rmTop rest

mutual
/-- Every block in sight carries a truthy `data` or `id`, so `blockId`
never falls back to `genUid()`.  The graphical editor maintains this for
every real workspace. -/
def Block.allConcrete : Block → Bool
  | .mk d i _ _ ins nx =>
    (jsOr d i != "") && Inputs.allConcrete ins && Chain.allConcrete nx

def Inputs.allConcrete : Inputs → Bool
  | .nil => true
  | .cons _ tg rest => Chain.allConcrete tg && Inputs.allConcrete rest

def Chain.allConcrete : Chain → Bool
  | .empty => true
  | .block b => Block.allConcrete b
end

/-- Link `c2` onto the end of the "next statement" chain `c1`. -/
def appendChain : Chain → Chain → Chain
  | .empty, c2 => c2
  | .block (.mk d i t f ins nx), c2 =>
    .block (.mk d i t f ins (appendChain nx c2))

/-! ## The abstract robot-control surface (`src/unnamed/part_001`)

`IRobotActions` and the abstract members of `BaseRobot` are transcribed
as lists of `(method name, parameter names)` pairs, in declaration
order. -/

/-- The methods declared by the `IRobotActions` interface, with their
parameter lists. -/
def iRobotActionsOps : List (String × List String) :=
  [("MoveTo", ["x", "y", "z"]),
   ("Grab", []),
   ("Release", []),
   ("PrintNumbers", []),
   ("ConnectRobot", ["ipAddress", "port"]),
   ("DisconnectRobot", []),
   ("PowerOnServo", []),
   ("PowerOffServo", []),
   ("SetSpeed", ["percentage"]),
   ("SetAcceleration", ["percentage"]),
   ("MoveJoint", ["j1", "j2", "j3", "j4", "j5", "j6"]),
   ("MoveLinear", ["x", "y", "z", "rx", "ry", "rz"]),
   ("MoveCircular", ["viaPoint", "endPoint"]),
   ("StopMotion", []),
   ("WaitForMoveFinish", []),
   ("GetCurrentJointPosition", []),
   ("GetCurrentCartesianPosition", []),
   ("GetRobotStatus", []),
   ("SetDigitalOutput", ["port", "value"]),
   ("GetDigitalInput", ["port"]),
   ("SetToolCoordinate", ["toolData"]),
   ("SetUserCoordinate", ["userData"])]

/-- The abstract methods of `BaseRobot`, with their parameter lists. -/
def baseRobotAbstractOps : List (String × List String) :=
  [("MoveTo", ["x", "y", "z"]),
   ("Grab", []),
   ("Release", []),
   ("PrintNumbers", []),
   ("ConnectRobot", ["ipAddress", "port"]),
   ("DisconnectRobot", []),
   ("PowerOnServo", []),
   ("PowerOffServo", []),
   ("SetSpeed", ["percentage"]),
   ("SetAcceleration", ["percentage"]),
   ("MoveJoint", ["j1", "j2", "j3", "j4", "j5", "j6"]),
   ("MoveLinear", ["x", "y", "z", "rx", "ry", "rz"]),
   ("MoveCircular", ["viaPoint", "endPoint"]),
   ("StopMotion", []),
   ("WaitForMoveFinish", []),
   ("GetCurrentJointPosition", []),
   ("GetCurrentCartesianPosition", []),
   ("GetRobotStatus", []),
   ("SetDigitalOutput", ["port", "value"]),
   ("GetDigitalInput", ["port"]),
   ("SetToolCoordinate", ["toolData"]),
   ("SetUserCoordinate", ["userData"])]

/-- `IRobotActions` declares the log-event hook
`event Action<string> OnLog;` (and `BaseRobot` implements it). -/
def iRobotActionsHasLogEvent : Bool := true

/-- Modelled from the spec: the operation surface claimed by spec section
6, keyed by the corresponding `IRobotActions` method name, with the
parameter list the spec attributes to it (a trailing `?` marks a
parameter the spec calls optional). -/
def specSection6Ops : List (String × List String) :=
  [("ConnectRobot", ["address", "port", "timeout"]),
   ("DisconnectRobot", []),
   ("PowerOnServo", []),
   ("PowerOffServo", []),
   ("SetSpeed", ["pct"]),
   ("SetAcceleration", ["pct"]),
   ("MoveTo", ["x", "y", "z", "speed"]),
   ("MoveJoint", ["j1", "j2", "j3", "j4", "j5", "j6", "speed"]),
   ("MoveLinear", ["x", "y", "z", "rx", "ry", "rz", "speed"]),
   ("MoveCircular", ["viaPoint", "endPoint"]),
   ("StopMotion", ["stopType?"]),
   ("WaitForMoveFinish", ["timeout?"]),
   ("SetToolCoordinate", ["toolData"]),
   ("SetUserCoordinate", ["userData"]),
   ("Grab", []),
   ("Release", []),
   ("GetCurrentJointPosition", []),
   ("GetCurrentCartesianPosition", []),
   ("GetRobotStatus", []),
   ("SetDigitalOutput", ["port", "value"]),
   ("GetDigitalInput", ["port"])]

/-! ## Spec-modelled validator fragment

The validator itself (the Python compiler backend the PyQt bridge calls)
is not under `src/`; only the spec describes it.  The definitions below
are modelled from the spec's validation rules, restricted to what the
percentage-range claim exercises: command-parameter validation of a flat
document against the schema registry. -/

/-- Modelled from the spec: the declared type of a command parameter;
`percent` is the "numeric percentage-typed" case with the closed range
[0,100]. -/
inductive ParamType : Type where
  | number
  | percent
  | string
  | boolean
deriving DecidableEq

/-- Modelled from the spec: one entry of a command's parameter
contract. -/
structure ParamSpec where
  ptype : ParamType
  required : Bool
deriving DecidableEq

/-- A node-id–tagged validation finding. -/
structure ValidationIssue where
  node_id : String
  message : String
deriving DecidableEq

/-- Modelled from the spec: the Schema Registry entries exercised by the
claims (speed/acceleration commands carry one required percentage-typed
parameter; `connect_robot` is included as a representative multi-field
command). -/
def schemaRegistry : List (String × List (String × ParamSpec)) :=
  [("set_speed", [("percentage", ⟨.percent, true⟩)]),
   ("set_acceleration", [("percentage", ⟨.percent, true⟩)]),
   ("connect_robot",
     [("ip_address", ⟨.string, true⟩), ("port", ⟨.number, true⟩),
      ("timeout_ms", ⟨.number, false⟩)])]

/-- Modelled from the spec: does a parameter value match its declared
type, including the closed [0,100] range for percentage parameters
(boundary values valid)? -/
def paramIssue (nid pname : String) (spec : ParamSpec) (v : PValue) :
    List ValidationIssue :=
  match spec.ptype, v with
  | .number, .n _ => []
  | .percent, .n x =>
    if 0 ≤ x ∧ x ≤ 100 then []
    else [⟨nid, "parameter " ++ pname ++ " out of range [0,100]"⟩]
  | .string, .s _ => []
  | .boolean, .b _ => []
  | _, _ => [⟨nid, "parameter " ++ pname ++ " has the wrong type"⟩]

/-- Modelled from the spec: validate one command node's parameters:
every required key present (missing named in an error), every present
declared key type/range checked.  Undeclared keys are warnings, which
this fragment does not track. -/
def validateCommandParams (nid : String)
    (spec : List (String × ParamSpec)) (params : List (String × PValue)) :
    List ValidationIssue :=
  (spec.filterMap (fun p =>
    if p.2.required ∧ (params.lookup p.1).isNone then
      some ⟨nid, "missing required parameter " ++ p.1⟩
    else none)) ++
  (params.foldr (fun kv acc =>
    (match spec.lookup kv.1 with
     | some ps => paramIssue nid kv.1 ps kv.2
     | none => []) ++ acc) [])

/-- Modelled from the spec: the command-parameter errors of a flat
document (rule 3 of the validator; structure and recursion rules are not
needed by the claims settled here). -/
def validateErrors (d : Document) : List ValidationIssue :=
  d.sequence.foldr (fun n acc =>
    (match n with
     | .command nid cmd params =>
       (match schemaRegistry.lookup cmd with
        | some spec => validateCommandParams nid spec (params.getD [])
        | none => [⟨nid, "UnknownCommand: " ++ cmd⟩])
     | _ => []) ++ acc) []

/-! ## Concrete fixtures used by witnesses and counterexamples -/

/-- A deterministic stand-in for one session's `genUid()` id supply. -/
def uidSupply (n : Nat) : String := "uid" ++ toString n

/-- A different session's id supply (`genUid()` is random, so two
invocations draw from different supplies). -/
def uidSupplyB (n : Nat) : String := "alt" ++ toString n

/-- The initial lowering state of one `workspaceToDocument` call. -/
def st0 : LowerState := { metadata := {}, warnings := [], nextUid := 0 }

def grabBlock : Block := .mk none "g1" "grab" [] .nil .empty

def untilBlock : Block :=
  .mk none "w1" "controls_whileUntil" [("MODE", "UNTIL")]
    (.cons "BOOL"
      (.block (.mk none "c1" "logic_boolean" [("BOOL", "TRUE")] .nil .empty))
      (.cons "DO" (.block grabBlock) .nil)) .empty

/-- A block of an unknown expression type. -/
def mysteryExprBlock : Block := .mk none "x1" "mystery_expr" [] .nil .empty

/-- A while block whose condition input holds a block of an unknown
expression type. -/
def mysteryExprWhile : Block :=
  .mk none "w2" "controls_whileUntil" []
    (.cons "BOOL" (.block mysteryExprBlock)
      (.cons "DO" .empty .nil)) .empty

/-- A statement block of a type with no lowering rule, followed by a
supported block. -/
def unsupportedStmtBlock : Block :=
  .mk none "t1" "text_print" [] .nil (.block grabBlock)

/-- A block whose `data` slot is set and differs from its id. -/
def dataOverrideBlock : Block := .mk (some "d9") "i1" "grab" [] .nil .empty

/-- A block with neither `data` nor a workspace id. -/
def noIdBlock : Block := .mk none "" "grab" [] .nil .empty

def stopPlainBlock : Block := .mk none "s1" "stop_motion" [] .nil .empty

def waitZeroBlock : Block :=
  .mk none "s2" "wait_for_move_finish" [("TIMEOUT", "0")] .nil .empty

def jointPosBlock : Block :=
  .mk none "s3" "get_current_joint_position" [("STORE", "")] .nil .empty

def digitalInBlock : Block :=
  .mk none "s4" "get_digital_input" [("PORT", "3"), ("STORE", "")] .nil .empty

/-- A chain `grab ; release`. -/
def chainA : Chain :=
  .block (.mk none "a1" "grab" [] .nil
    (.block (.mk none "a2" "release" [] .nil .empty)))

/-- A chain `power_on_servo`. -/
def chainB : Chain :=
  .block (.mk none "b1" "power_on_servo" [] .nil .empty)

/-- The second `set_metadata` block of `metaTwiceHead`, with its tail. -/
def kukaMetaBlock : Block :=
  .mk none "m2" "set_metadata" [("ROBOT_BRAND", "kuka")] .nil
    (.block (.mk none "r1" "release" [] .nil .empty))

/-- A top-level block heading a chain with two metadata blocks around
ordinary commands: `set_metadata(fanuc); grab; set_metadata(kuka);
release`. -/
def metaTwiceHead : Block :=
  .mk none "m1" "set_metadata" [("ROBOT_BRAND", "fanuc")] .nil
    (.block (.mk none "g1" "grab" [] .nil (.block kukaMetaBlock)))

/-- A chain with two metadata blocks around ordinary commands. -/
def metaTwiceChain : Chain :=
  .block (.mk none "m1" "set_metadata" [("ROBOT_BRAND", "fanuc")] .nil
    (.block (.mk none "g1" "grab" [] .nil
      (.block (.mk none "m2" "set_metadata" [("ROBOT_BRAND", "kuka")] .nil
        (.block (.mk none "r1" "release" [] .nil .empty)))))))

/-! ## Fuel monotonicity

Every lowering function is monotone in its fuel: once a run completes
without exhausting the fuel, adding fuel does not change the result.
This is what makes the fuel parameter a pure embedding artifact. -/

theorem ebind_ok {α β : Type} (a : α) (f : α → Except LowerError β) :
    (Except.ok a >>= f) = f a := rfl

theorem ebind_error {α β : Type} (e : LowerError)
    (f : α → Except LowerError β) :
    ((Except.error e : Except LowerError α) >>= f) = .error e := rfl

/-- Congruence for `bind` under fuel-monotonicity: if the first stages
agree whenever the reference stage does not exhaust fuel, and likewise
for the continuations, the whole binds agree. -/
theorem mono_bind {α β : Type} {e1 e2 : Except LowerError α}
    {k1 k2 : α → Except LowerError β}
    (he : e2 ≠ .error .fuelExhausted → e1 = e2)
    (hk : ∀ a, e2 = .ok a → k2 a ≠ .error .fuelExhausted → k1 a = k2 a)
    (h : e2 >>= k2 ≠ .error .fuelExhausted) :
    e1 >>= k1 = e2 >>= k2 := by
  cases h2 : e2 with
  | error er =>
    rw [h2, ebind_error] at h
    have her : er ≠ .fuelExhausted := fun hc => h (by rw [hc])
    have hne : e2 ≠ .error .fuelExhausted := by
      rw [h2]; exact fun hc => her (by injection hc)
    rw [he hne, h2, ebind_error, ebind_error]
  | ok a =>
    rw [h2, ebind_ok] at h
    have hne : e2 ≠ .error .fuelExhausted := by
      rw [h2]; exact fun hc => Except.noConfusion hc
    rw [he hne, h2, ebind_ok, ebind_ok]
    exact hk a h2 h

/-! Unfolding equations for the lowering family, proved by `rfl` (the
definitions are structural in the fuel). -/

theorem expressionFrom_empty (fuel : Nat) :
    expressionFrom fuel .empty = .ok (.literal_number 0) := by
  cases fuel <;> rfl

theorem expressionFrom_zero (b : Block) :
    expressionFrom 0 (.block b) = .error .fuelExhausted := rfl

theorem expressionFrom_succ (fuel : Nat) (b : Block) :
    expressionFrom (fuel + 1) (.block b) =
    (match exprKind b.btype with
    | .number =>
      .ok (.literal_number (jsNumberOr (b.getFieldValue "NUM") 0))
    | .boolean =>
      .ok (.literal_boolean (b.getFieldValue "BOOL" = some "TRUE"))
    | .compare => do
      let l ← expressionFrom fuel (b.getInputTargetBlock "A")
      let r ← expressionFrom fuel (b.getInputTargetBlock "B")
      .ok (.comparison (jsToLower (jsOr (b.getFieldValue "OP") "EQ")) l r)
    | .operation => do
      let l ← expressionFrom fuel (b.getInputTargetBlock "A")
      let r ← expressionFrom fuel (b.getInputTargetBlock "B")
      .ok (.logic_binary (jsToLower (jsOr (b.getFieldValue "OP") "AND")) l r)
    | .negate => do
      let a ← expressionFrom fuel (b.getInputTargetBlock "BOOL")
      .ok (.logic_not a)
    | .nullLit =>
      .ok .literal_null
    | .ternary => do
      let c ← expressionFrom fuel (b.getInputTargetBlock "IF")
      let t ← expressionFrom fuel (b.getInputTargetBlock "THEN")
      let e ← expressionFrom fuel (b.getInputTargetBlock "ELSE")
      .ok (.ternary c t e)
    | .arith => do
      let l ← expressionFrom fuel (b.getInputTargetBlock "A")
      let r ← expressionFrom fuel (b.getInputTargetBlock "B")
      .ok (.arithmetic (jsToLower (jsOr (b.getFieldValue "OP") "ADD")) l r)
    | .single => do
      let a ← expressionFrom fuel (b.getInputTargetBlock "NUM")
      .ok (.math_single (jsToLower (jsOr (b.getFieldValue "OP") "ROOT")) a)
    | .trig => do
      let a ← expressionFrom fuel (b.getInputTargetBlock "NUM")
      .ok (.math_trig (jsToLower (jsOr (b.getFieldValue "OP") "SIN")) a)
    | .constant =>
      .ok (.math_constant (jsToLower (jsOr (b.getFieldValue "CONSTANT") "PI")))
    | .round => do
      let a ← expressionFrom fuel (b.getInputTargetBlock "NUM")
      .ok (.math_round (jsToLower (jsOr (b.getFieldValue "OP") "ROUND")) a)
    | .modulo => do
      let l ← expressionFrom fuel (b.getInputTargetBlock "DIVIDEND")
      let r ← expressionFrom fuel (b.getInputTargetBlock "DIVISOR")
      .ok (.math_modulo l r)
    | .constrain => do
      let v ← expressionFrom fuel (b.getInputTargetBlock "VALUE")
      let lo ← expressionFrom fuel (b.getInputTargetBlock "LOW")
      let hi ← expressionFrom fuel (b.getInputTargetBlock "HIGH")
      .ok (.math_constrain v lo hi)
    | .randomInt => do
      let lo ← expressionFrom fuel (b.getInputTargetBlock "FROM")
      let hi ← expressionFrom fuel (b.getInputTargetBlock "TO")
      .ok (.math_random_int lo hi)
    | .randomFloat =>
      .ok .math_random_float
    | .unsupported =>
      .error (.thrown ("Unsupported expression block: " ++ b.btype))) := rfl

theorem sequenceFrom_empty (g : Nat → String) (fuel : Nat) (st : LowerState) :
    sequenceFrom g fuel .empty st = .ok ([], st) := by
  cases fuel <;> rfl

theorem sequenceFrom_zero (g : Nat → String) (b : Block) (st : LowerState) :
    sequenceFrom g 0 (.block b) st = .error .fuelExhausted := rfl

theorem sequenceFrom_succ (g : Nat → String) (fuel : Nat) (b : Block)
    (st : LowerState) :
    sequenceFrom g (fuel + 1) (.block b) st =
    (if b.btype = "set_metadata" then
      sequenceFrom g fuel b.next { st with metadata := applyMetadata b st.metadata }
    else do
      let (ns, st1) ← convertStatementBlock g fuel b st
      let (ms, st2) ← sequenceFrom g fuel b.next st1
      .ok (ns ++ ms, st2)) := rfl

theorem convertStatementBlock_zero (g : Nat → String) (b : Block)
    (st : LowerState) :
    convertStatementBlock g 0 b st = .error .fuelExhausted := rfl

theorem convertStatementBlock_succ (g : Nat → String) (fuel : Nat) (b : Block)
    (st : LowerState) :
    convertStatementBlock g (fuel + 1) b st =
    (match stmtKind b.btype with
    | .ifStmt => do
      let (n, st1) ← convertIfBlock g fuel b st
      .ok ([n], st1)
    | .repeatStmt => do
      let (n, st1) ← convertRepeatBlock g fuel b st
      .ok ([n], st1)
    | .whileStmt => do
      let (n, st1) ← convertWhileBlock g fuel b st
      .ok ([n], st1)
    | .forStmt => do
      let (n, st1) ← convertForBlock g fuel b st
      .ok ([n], st1)
    | .flowStmt =>
      let (n, st1) := convertFlowStatement g b st
      .ok ([n], st1)
    | .command =>
      let (n, st1) := convertCommandBlock g b st
      .ok ([n], st1)
    | .unsupported =>
      .ok ([], { st with warnings := st.warnings ++
        ["Ignoring unsupported statement block: " ++ b.btype] })) := rfl

theorem convertIfBlock_zero (g : Nat → String) (b : Block) (st : LowerState) :
    convertIfBlock g 0 b st = .error .fuelExhausted := rfl

theorem convertIfBlock_succ (g : Nat → String) (fuel : Nat) (b : Block)
    (st : LowerState) :
    convertIfBlock g (fuel + 1) b st = (do
      let (branches, st1) ← convertIfBranches g fuel b 0 (ifBranchCount b) st
      let (elseBody, st2) ← sequenceFrom g fuel (b.getInputTargetBlock "ELSE") st1
      let (nid, st3) := blockId g b st2
      .ok (.ifNode nid branches
        (if elseBody.isEmpty then none else some elseBody), st3)) := rfl

theorem convertIfBranches_nil (g : Nat → String) (fuel : Nat) (b : Block)
    (i : Nat) (st : LowerState) :
    convertIfBranches g fuel b i 0 st = .ok ([], st) := by
  cases fuel <;> rfl

theorem convertIfBranches_zero (g : Nat → String) (b : Block) (i k : Nat)
    (st : LowerState) :
    convertIfBranches g 0 b i (k + 1) st = .error .fuelExhausted := rfl

theorem convertIfBranches_succ (g : Nat → String) (fuel : Nat) (b : Block)
    (i k : Nat) (st : LowerState) :
    convertIfBranches g (fuel + 1) b i (k + 1) st = (do
      let cond ← expressionFrom fuel (b.getInputTargetBlock ("IF" ++ toString i))
      let (body, st1) ←
        sequenceFrom g fuel (b.getInputTargetBlock ("DO" ++ toString i)) st
      let (rest, st2) ← convertIfBranches g fuel b (i + 1) k st1
      .ok ((cond, body) :: rest, st2)) := rfl

theorem convertRepeatBlock_zero (g : Nat → String) (b : Block)
    (st : LowerState) :
    convertRepeatBlock g 0 b st = .error .fuelExhausted := rfl

theorem convertRepeatBlock_succ (g : Nat → String) (fuel : Nat) (b : Block)
    (st : LowerState) :
    convertRepeatBlock g (fuel + 1) b st = (do
      let (nid, st1) := blockId g b st
      let count ← expressionFrom fuel (b.getInputTargetBlock "TIMES")
      let (body, st2) ← sequenceFrom g fuel (b.getInputTargetBlock "DO") st1
      .ok (.repeatNode nid count body, st2)) := rfl

theorem convertWhileBlock_zero (g : Nat → String) (b : Block)
    (st : LowerState) :
    convertWhileBlock g 0 b st = .error .fuelExhausted := rfl

theorem convertWhileBlock_succ (g : Nat → String) (fuel : Nat) (b : Block)
    (st : LowerState) :
    convertWhileBlock g (fuel + 1) b st = (do
      let mode := if b.getFieldValue "MODE" = some "UNTIL" then "until" else "while"
      let (nid, st1) := blockId g b st
      let cond ← expressionFrom fuel (b.getInputTargetBlock "BOOL")
      let (body, st2) ← sequenceFrom g fuel (b.getInputTargetBlock "DO") st1
      .ok (.whileNode nid mode cond body, st2)) := rfl

theorem convertForBlock_zero (g : Nat → String) (b : Block)
    (st : LowerState) :
    convertForBlock g 0 b st = .error .fuelExhausted := rfl

theorem convertForBlock_succ (g : Nat → String) (fuel : Nat) (b : Block)
    (st : LowerState) :
    convertForBlock g (fuel + 1) b st =
    (if b.btype = "controls_for" then do
      let (nid, st1) := blockId g b st
      let lo ← expressionFrom fuel (b.getInputTargetBlock "FROM")
      let hi ← expressionFrom fuel (b.getInputTargetBlock "TO")
      let step ← expressionFrom fuel (b.getInputTargetBlock "BY")
      let (body, st2) ← sequenceFrom g fuel (b.getInputTargetBlock "DO") st1
      .ok (.forRange nid (jsOr (b.getFieldValue "VAR") "i") lo hi step body, st2)
    else do
      let (nid, st1) := blockId g b st
      let coll ← expressionFrom fuel (b.getInputTargetBlock "LIST")
      let (body, st2) ← sequenceFrom g fuel (b.getInputTargetBlock "DO") st1
      .ok (.forEach nid (jsOr (b.getFieldValue "VAR") "item") coll body, st2)) := rfl

set_option maxHeartbeats 1000000 in
/-- Adding one unit of fuel preserves any non-exhausted result, for
every function of the lowering family simultaneously. -/
theorem lower_mono_all (g : Nat → String) : ∀ fuel : Nat,
    (∀ c, expressionFrom fuel c ≠ .error .fuelExhausted →
      expressionFrom (fuel + 1) c = expressionFrom fuel c) ∧
    (∀ c st, sequenceFrom g fuel c st ≠ .error .fuelExhausted →
      sequenceFrom g (fuel + 1) c st = sequenceFrom g fuel c st) ∧
    (∀ b st, convertStatementBlock g fuel b st ≠ .error .fuelExhausted →
      convertStatementBlock g (fuel + 1) b st = convertStatementBlock g fuel b st) ∧
    (∀ b st, convertIfBlock g fuel b st ≠ .error .fuelExhausted →
      convertIfBlock g (fuel + 1) b st = convertIfBlock g fuel b st) ∧
    (∀ b i k st, convertIfBranches g fuel b i k st ≠ .error .fuelExhausted →
      convertIfBranches g (fuel + 1) b i k st = convertIfBranches g fuel b i k st) ∧
    (∀ b st, convertRepeatBlock g fuel b st ≠ .error .fuelExhausted →
      convertRepeatBlock g (fuel + 1) b st = convertRepeatBlock g fuel b st) ∧
    (∀ b st, convertWhileBlock g fuel b st ≠ .error .fuelExhausted →
      convertWhileBlock g (fuel + 1) b st = convertWhileBlock g fuel b st) ∧
    (∀ b st, convertForBlock g fuel b st ≠ .error .fuelExhausted →
      convertForBlock g (fuel + 1) b st = convertForBlock g fuel b st) := by
  intro fuel
  induction fuel with
  | zero =>
    refine ⟨?_, ?_, ?_, ?_, ?_, ?_, ?_, ?_⟩
    · intro c h
      cases c with
      | empty => rfl
      | block b => exact absurd rfl h
    · intro c st h
      cases c with
      | empty => rfl
      | block b => exact absurd rfl h
    · intro b st h; exact absurd rfl h
    · intro b st h; exact absurd rfl h
    · intro b i k st h
      cases k with
      | zero => rfl
      | succ k => exact absurd rfl h
    · intro b st h; exact absurd rfl h
    · intro b st h; exact absurd rfl h
    · intro b st h; exact absurd rfl h
  | succ f ih =>
    obtain ⟨ihE, ihS, ihT, ihI, ihB, ihR, ihW, ihF⟩ := ih
    refine ⟨?_, ?_, ?_, ?_, ?_, ?_, ?_, ?_⟩
    · intro c h
      cases c with
      | empty => rfl
      | block b =>
        rw [expressionFrom_succ] at h
        rw [expressionFrom_succ, expressionFrom_succ]
        cases hE : exprKind b.btype <;> rw [hE] at h <;>
          first
          | rfl
          | (refine mono_bind (fun hx => ihE _ hx) ?_ h
             rintro a _ hx
             first
             | rfl
             | (refine mono_bind (fun hy => ihE _ hy) ?_ hx
                rintro a2 _ hy
                first
                | rfl
                | (refine mono_bind (fun hz => ihE _ hz) ?_ hy
                   rintro a3 _ hz
                   rfl)))
    · intro c st h
      cases c with
      | empty => rfl
      | block b =>
        rw [sequenceFrom_succ] at h
        rw [sequenceFrom_succ, sequenceFrom_succ]
        by_cases hm : b.btype = "set_metadata"
        · rw [if_pos hm] at h
          rw [if_pos hm, if_pos hm]
          exact ihS _ _ h
        · rw [if_neg hm] at h
          rw [if_neg hm, if_neg hm]
          refine mono_bind (fun hx => ihT _ _ hx) ?_ h
          rintro ⟨ns, st1⟩ _ hx
          refine mono_bind (fun hy => ihS _ _ hy) ?_ hx
          rintro ⟨ms, st2⟩ _ _
          rfl
    · intro b st h
      rw [convertStatementBlock_succ] at h
      rw [convertStatementBlock_succ, convertStatementBlock_succ]
      cases hK : stmtKind b.btype <;> rw [hK] at h
      · refine mono_bind (fun hx => ihI _ _ hx) ?_ h
        rintro ⟨n, st1⟩ _ _; rfl
      · refine mono_bind (fun hx => ihR _ _ hx) ?_ h
        rintro ⟨n, st1⟩ _ _; rfl
      · refine mono_bind (fun hx => ihW _ _ hx) ?_ h
        rintro ⟨n, st1⟩ _ _; rfl
      · refine mono_bind (fun hx => ihF _ _ hx) ?_ h
        rintro ⟨n, st1⟩ _ _; rfl
    · intro b st h
      rw [convertIfBlock_succ] at h
      rw [convertIfBlock_succ, convertIfBlock_succ]
      refine mono_bind (fun hx => ihB _ _ _ _ hx) ?_ h
      rintro ⟨branches, st1⟩ _ hx
      refine mono_bind (fun hy => ihS _ _ hy) ?_ hx
      rintro ⟨elseBody, st2⟩ _ _
      rfl
    · intro b i k st h
      cases k with
      | zero => rfl
      | succ k =>
        rw [convertIfBranches_succ] at h
        rw [convertIfBranches_succ, convertIfBranches_succ]
        refine mono_bind (fun hx => ihE _ hx) ?_ h
        rintro cond _ hx
        refine mono_bind (fun hy => ihS _ _ hy) ?_ hx
        rintro ⟨body, st1⟩ _ hy
        refine mono_bind (fun hz => ihB _ _ _ _ hz) ?_ hy
        rintro ⟨rest, st2⟩ _ _
        rfl
    · intro b st h
      rw [convertRepeatBlock_succ] at h
      rw [convertRepeatBlock_succ, convertRepeatBlock_succ]
      rcases hq : blockId g b st with ⟨nid, st1⟩
      rw [hq] at h
      refine mono_bind (fun hx => ihE _ hx) ?_ h
      rintro count _ hx
      refine mono_bind (fun hy => ihS _ _ hy) ?_ hx
      rintro ⟨body, st2⟩ _ _
      rfl
    · intro b st h
      rw [convertWhileBlock_succ] at h
      rw [convertWhileBlock_succ, convertWhileBlock_succ]
      rcases hq : blockId g b st with ⟨nid, st1⟩
      rw [hq] at h
      refine mono_bind (fun hx => ihE _ hx) ?_ h
      rintro cond _ hx
      refine mono_bind (fun hy => ihS _ _ hy) ?_ hx
      rintro ⟨body, st2⟩ _ _
      rfl
    · intro b st h
      rw [convertForBlock_succ] at h
      rw [convertForBlock_succ, convertForBlock_succ]
      rcases hq : blockId g b st with ⟨nid, st1⟩
      rw [hq] at h
      by_cases hc : b.btype = "controls_for"
      · rw [if_pos hc] at h
        rw [if_pos hc, if_pos hc]
        refine mono_bind (fun hx => ihE _ hx) ?_ h
        rintro lo _ hx
        refine mono_bind (fun hy => ihE _ hy) ?_ hx
        rintro hi _ hy
        refine mono_bind (fun hz => ihE _ hz) ?_ hy
        rintro step _ hz
        refine mono_bind (fun hw => ihS _ _ hw) ?_ hz
        rintro ⟨body, st2⟩ _ _
        rfl
      · rw [if_neg hc] at h
        rw [if_neg hc, if_neg hc]
        refine mono_bind (fun hx => ihE _ hx) ?_ h
        rintro coll _ hx
        refine mono_bind (fun hy => ihS _ _ hy) ?_ hx
        rintro ⟨body, st2⟩ _ _
        rfl

/-- Fuel monotonicity for `expressionFrom`. -/
theorem expressionFrom_mono {f f' : Nat} (hle : f ≤ f') {c : Chain}
    (h : expressionFrom f c ≠ .error .fuelExhausted) :
    expressionFrom f' c = expressionFrom f c := by
  induction hle with
  | refl => rfl
  | step hm ih =>
    rw [(lower_mono_all (fun _ => "") _).1 c (by rw [ih]; exact h), ih]

/-- Fuel monotonicity for `sequenceFrom`. -/
theorem sequenceFrom_mono (g : Nat → String) {f f' : Nat} (hle : f ≤ f')
    {c : Chain} {st : LowerState}
    (h : sequenceFrom g f c st ≠ .error .fuelExhausted) :
    sequenceFrom g f' c st = sequenceFrom g f c st := by
  induction hle with
  | refl => rfl
  | step hm ih =>
    rw [(lower_mono_all g _).2.1 c st (by rw [ih]; exact h), ih]

/-- Fuel monotonicity for `convertStatementBlock`. -/
theorem convertStatementBlock_mono (g : Nat → String) {f f' : Nat}
    (hle : f ≤ f') {b : Block} {st : LowerState}
    (h : convertStatementBlock g f b st ≠ .error .fuelExhausted) :
    convertStatementBlock g f' b st = convertStatementBlock g f b st := by
  induction hle with
  | refl => rfl
  | step hm ih =>
    rw [(lower_mono_all g _).2.2.1 b st (by rw [ih]; exact h), ih]

/-- When a block's `data` slot is falsy and its workspace id is truthy,
`blockId` returns the workspace id unchanged, from any state. -/
theorem blockId_of_concrete {b : Block} (hd : jsOr b.data "" = "")
    (hi : b.id ≠ "") (g : Nat → String) (st : LowerState) :
    blockId g b st = (b.id, st) := by
  cases hbd : b.data with
  | none => simp [blockId, blockIdFallback, hbd, hi]
  | some d =>
    rw [hbd] at hd
    simp only [jsOr] at hd
    by_cases hde : d = ""
    · simp [blockId, blockIdFallback, hbd, hde, hi]
    · rw [if_neg hde] at hd; exact absurd hd hde

/-- Fuel monotonicity for `lowerTopBlocks`. -/
theorem lowerTopBlocks_mono (g : Nat → String) {f f' : Nat} (hle : f ≤ f') :
    ∀ {ws : List Block} {st : LowerState},
    lowerTopBlocks g f ws st ≠ .error .fuelExhausted →
    lowerTopBlocks g f' ws st = lowerTopBlocks g f ws st := by
  intro ws
  induction ws with
  | nil => intro st h; rfl
  | cons b rest ih =>
    intro st h
    simp only [lowerTopBlocks] at h ⊢
    refine mono_bind (fun hx => sequenceFrom_mono g hle hx) ?_ h
    rintro ⟨ns, st1⟩ _ hx
    refine mono_bind (fun hy => ih hy) ?_ hx
    rintro ⟨ms, st2⟩ _ _
    rfl

/-! ## The "next" pointer is irrelevant to a single block's conversion

The converter of a statement block reads its type, fields, inputs and
id, but never its "next" pointer; only `sequenceFrom` follows the
chain.  These lemmas make that explicit, and power the
order-of-lowering theorem. -/

theorem convertRepeatBlock_ignores_next (g : Nat → String) (fuel : Nat)
    (d : Option String) (i t : String) (fl : List (String × String))
    (ins : Inputs) (nx nx' : Chain) (st : LowerState) :
    convertRepeatBlock g fuel (.mk d i t fl ins nx) st =
      convertRepeatBlock g fuel (.mk d i t fl ins nx') st := by
  cases fuel <;> rfl

theorem convertWhileBlock_ignores_next (g : Nat → String) (fuel : Nat)
    (d : Option String) (i t : String) (fl : List (String × String))
    (ins : Inputs) (nx nx' : Chain) (st : LowerState) :
    convertWhileBlock g fuel (.mk d i t fl ins nx) st =
      convertWhileBlock g fuel (.mk d i t fl ins nx') st := by
  cases fuel <;> rfl

theorem convertForBlock_ignores_next (g : Nat → String) (fuel : Nat)
    (d : Option String) (i t : String) (fl : List (String × String))
    (ins : Inputs) (nx nx' : Chain) (st : LowerState) :
    convertForBlock g fuel (.mk d i t fl ins nx) st =
      convertForBlock g fuel (.mk d i t fl ins nx') st := by
  cases fuel <;> rfl

theorem convertCommandBlock_ignores_next (g : Nat → String)
    (d : Option String) (i t : String) (fl : List (String × String))
    (ins : Inputs) (nx nx' : Chain) (st : LowerState) :
    convertCommandBlock g (.mk d i t fl ins nx) st =
      convertCommandBlock g (.mk d i t fl ins nx') st := by
  rcases eq_or_ne t "connect_robot" with h | h1
  · subst h; rfl
  rcases eq_or_ne t "set_speed" with h | h2
  · subst h; rfl
  rcases eq_or_ne t "set_acceleration" with h | h3
  · subst h; rfl
  rcases eq_or_ne t "move_to" with h | h4
  · subst h; rfl
  rcases eq_or_ne t "move_joint" with h | h5
  · subst h; rfl
  rcases eq_or_ne t "move_linear" with h | h6
  · subst h; rfl
  rcases eq_or_ne t "move_circular" with h | h7
  · subst h; rfl
  rcases eq_or_ne t "stop_motion" with h | h8
  · subst h; rfl
  rcases eq_or_ne t "wait_for_move_finish" with h | h9
  · subst h; rfl
  rcases eq_or_ne t "set_tool_coordinate" with h | h10
  · subst h; rfl
  rcases eq_or_ne t "set_user_coordinate" with h | h11
  · subst h; rfl
  rcases eq_or_ne t "get_current_joint_position" with h | h12
  · subst h; rfl
  rcases eq_or_ne t "get_current_cartesian_position" with h | h13
  · subst h; rfl
  rcases eq_or_ne t "get_robot_status" with h | h14
  · subst h; rfl
  rcases eq_or_ne t "set_digital_output" with h | h15
  · subst h; rfl
  rcases eq_or_ne t "get_digital_input" with h | h16
  · subst h; rfl
  have hpr : parameterReaders t = none := by
    simp [parameterReaders, h1, h2, h3, h4, h5, h6, h7, h8, h9, h10, h11,
      h12, h13, h14, h15, h16]
  simp only [convertCommandBlock, Block.btype, hpr]
  rw [show blockId g (Block.mk d i t fl ins nx) st =
    blockId g (Block.mk d i t fl ins nx') st from rfl]

theorem ifBranchCountAux_ignores_next (d : Option String) (i t : String)
    (fl : List (String × String)) (ins : Inputs) (nx nx' : Chain) :
    ∀ n j, ifBranchCountAux (.mk d i t fl ins nx) n j =
      ifBranchCountAux (.mk d i t fl ins nx') n j := by
  intro n
  induction n with
  | zero => intro j; rfl
  | succ n ih =>
    intro j
    simp only [ifBranchCountAux, Block.hasInput, Block.inputs]
    split
    · exact ih (j + 1)
    · rfl

theorem ifBranchCount_ignores_next (d : Option String) (i t : String)
    (fl : List (String × String)) (ins : Inputs) (nx nx' : Chain) :
    ifBranchCount (.mk d i t fl ins nx) =
      ifBranchCount (.mk d i t fl ins nx') := by
  simp only [ifBranchCount, Block.inputs]
  exact ifBranchCountAux_ignores_next d i t fl ins nx nx' _ 0

/-- `convertStatementBlock`, `convertIfBlock` and `convertIfBranches`
ignore the block's "next" pointer. -/
theorem lower_ignores_next (g : Nat → String) : ∀ fuel : Nat,
    (∀ d i t fl ins nx nx' st,
      convertStatementBlock g fuel (.mk d i t fl ins nx) st =
        convertStatementBlock g fuel (.mk d i t fl ins nx') st) ∧
    (∀ d i t fl ins nx nx' st,
      convertIfBlock g fuel (.mk d i t fl ins nx) st =
        convertIfBlock g fuel (.mk d i t fl ins nx') st) ∧
    (∀ d i t fl ins nx nx' j k st,
      convertIfBranches g fuel (.mk d i t fl ins nx) j k st =
        convertIfBranches g fuel (.mk d i t fl ins nx') j k st) := by
  intro fuel
  induction fuel with
  | zero =>
    refine ⟨fun _ _ _ _ _ _ _ _ => rfl, fun _ _ _ _ _ _ _ _ => rfl, ?_⟩
    intro d i t fl ins nx nx' j k st
    cases k with
    | zero => rfl
    | succ k => rfl
  | succ f ih =>
    obtain ⟨ihT, ihI, ihB⟩ := ih
    refine ⟨?_, ?_, ?_⟩
    · intro d i t fl ins nx nx' st
      rw [convertStatementBlock_succ, convertStatementBlock_succ]
      simp only [Block.btype]
      cases hK : stmtKind t
      · rw [ihI d i t fl ins nx nx' st]
      · rw [convertRepeatBlock_ignores_next g f d i t fl ins nx nx' st]
      · rw [convertWhileBlock_ignores_next g f d i t fl ins nx nx' st]
      · rw [convertForBlock_ignores_next g f d i t fl ins nx nx' st]
      · rfl
      · rw [convertCommandBlock_ignores_next g d i t fl ins nx nx' st]
      · rfl
    · intro d i t fl ins nx nx' st
      rw [convertIfBlock_succ, convertIfBlock_succ]
      rw [ifBranchCount_ignores_next d i t fl ins nx' nx,
        ihB d i t fl ins nx nx' 0 (ifBranchCount (.mk d i t fl ins nx)) st]
      rfl
    · intro d i t fl ins nx nx' j k st
      cases k with
      | zero => rfl
      | succ k =>
        rw [convertIfBranches_succ, convertIfBranches_succ]
        simp only [ihB d i t fl ins nx nx']
        rfl

/-! ## The id supply is irrelevant when every block has a concrete id

`genUid()` is only consulted by `blockId` when a block has neither a
truthy `data` slot nor a nonempty id.  On workspaces where every block
carries one (which the editor guarantees), lowering does not depend on
the id supply at all — this is the determinism claim's sound core. -/

theorem ebind_congr {α β : Type} {e1 e2 : Except LowerError α}
    {k1 k2 : α → Except LowerError β} (he : e1 = e2)
    (hk : ∀ a, k1 a = k2 a) : e1 >>= k1 = e2 >>= k2 := by
  subst he
  cases e1 with
  | error e => rfl
  | ok a => exact hk a

theorem blockId_g_irrelevant {b : Block}
    (hc : (jsOr b.data b.id != "") = true) (g1 g2 : Nat → String)
    (st : LowerState) : blockId g1 b st = blockId g2 b st := by
  simp only [bne_iff_ne, ne_eq] at hc
  cases hbd : b.data with
  | none =>
    rw [hbd] at hc
    simp only [jsOr] at hc
    simp [blockId, blockIdFallback, hbd, hc]
  | some d =>
    rw [hbd] at hc
    simp only [jsOr] at hc
    by_cases hde : d = ""
    · rw [if_pos hde] at hc
      simp [blockId, blockIdFallback, hbd, hde, hc]
    · simp [blockId, hbd, hde]

theorem Inputs.find_allConcrete : ∀ {ins : Inputs},
    Inputs.allConcrete ins = true → ∀ k : String,
    Chain.allConcrete (ins.find k) = true
  | .nil, _, _ => rfl
  | .cons n tg rest, h, k => by
    simp only [Inputs.allConcrete, Bool.and_eq_true] at h
    simp only [Inputs.find]
    split
    · exact h.1
    · exact Inputs.find_allConcrete h.2 k

theorem convertFlowStatement_g_irrelevant {b : Block}
    (hc : (jsOr b.data b.id != "") = true) (g1 g2 : Nat → String)
    (st : LowerState) :
    convertFlowStatement g1 b st = convertFlowStatement g2 b st := by
  simp only [convertFlowStatement, blockId_g_irrelevant hc g1 g2 st]

theorem convertCommandBlock_g_irrelevant {b : Block}
    (hc : (jsOr b.data b.id != "") = true) (g1 g2 : Nat → String)
    (st : LowerState) :
    convertCommandBlock g1 b st = convertCommandBlock g2 b st := by
  simp only [convertCommandBlock, blockId_g_irrelevant hc g1 g2 st]

/-- On all-concrete-id graphs, the whole lowering family is independent
of the id supply. -/
theorem lower_g_irrelevant (g1 g2 : Nat → String) : ∀ fuel : Nat,
    (∀ c st, Chain.allConcrete c = true →
      sequenceFrom g1 fuel c st = sequenceFrom g2 fuel c st) ∧
    (∀ b st, Block.allConcrete b = true →
      convertStatementBlock g1 fuel b st = convertStatementBlock g2 fuel b st) ∧
    (∀ b st, Block.allConcrete b = true →
      convertIfBlock g1 fuel b st = convertIfBlock g2 fuel b st) ∧
    (∀ b i k st, Block.allConcrete b = true →
      convertIfBranches g1 fuel b i k st = convertIfBranches g2 fuel b i k st) ∧
    (∀ b st, Block.allConcrete b = true →
      convertRepeatBlock g1 fuel b st = convertRepeatBlock g2 fuel b st) ∧
    (∀ b st, Block.allConcrete b = true →
      convertWhileBlock g1 fuel b st = convertWhileBlock g2 fuel b st) ∧
    (∀ b st, Block.allConcrete b = true →
      convertForBlock g1 fuel b st = convertForBlock g2 fuel b st) := by
  intro fuel
  induction fuel with
  | zero =>
    refine ⟨?_, fun _ _ _ => rfl, fun _ _ _ => rfl, ?_, fun _ _ _ => rfl,
      fun _ _ _ => rfl, fun _ _ _ => rfl⟩
    · intro c st _
      cases c <;> rfl
    · intro b i k st _
      cases k <;> rfl
  | succ f ih =>
    obtain ⟨ihS, ihT, ihI, ihB, ihR, ihW, ihF⟩ := ih
    have hparts : ∀ b : Block, Block.allConcrete b = true →
        (jsOr b.data b.id != "") = true ∧
        Inputs.allConcrete b.inputs = true ∧
        Chain.allConcrete b.next = true := by
      intro b hb
      obtain ⟨bd, bi, bt, bfl, bins, bnx⟩ := b
      simp only [Block.allConcrete, Bool.and_eq_true] at hb
      exact ⟨hb.1.1, hb.1.2, hb.2⟩
    refine ⟨?_, ?_, ?_, ?_, ?_, ?_, ?_⟩
    · intro c st hc
      cases c with
      | empty => rfl
      | block b =>
        have hb : Block.allConcrete b = true := hc
        obtain ⟨hid, hins, hnx⟩ := hparts b hb
        rw [sequenceFrom_succ, sequenceFrom_succ]
        by_cases hm : b.btype = "set_metadata"
        · rw [if_pos hm, if_pos hm]
          exact ihS _ _ hnx
        · rw [if_neg hm, if_neg hm]
          refine ebind_congr (ihT _ _ hb) ?_
          rintro ⟨ns, st1⟩
          refine ebind_congr (ihS _ _ hnx) ?_
          rintro ⟨ms, st2⟩
          rfl
    · intro b st hb
      obtain ⟨hid, hins, hnx⟩ := hparts b hb
      rw [convertStatementBlock_succ, convertStatementBlock_succ]
      cases hK : stmtKind b.btype
      · refine ebind_congr (ihI _ _ hb) ?_
        rintro ⟨n, st1⟩; rfl
      · refine ebind_congr (ihR _ _ hb) ?_
        rintro ⟨n, st1⟩; rfl
      · refine ebind_congr (ihW _ _ hb) ?_
        rintro ⟨n, st1⟩; rfl
      · refine ebind_congr (ihF _ _ hb) ?_
        rintro ⟨n, st1⟩; rfl
      · rw [convertFlowStatement_g_irrelevant hid g1 g2 st]
      · rw [convertCommandBlock_g_irrelevant hid g1 g2 st]
      · rfl
    · intro b st hb
      obtain ⟨hid, hins, hnx⟩ := hparts b hb
      rw [convertIfBlock_succ, convertIfBlock_succ]
      refine ebind_congr (ihB _ _ _ _ hb) ?_
      rintro ⟨branches, st1⟩
      refine ebind_congr (ihS _ _ (Inputs.find_allConcrete hins "ELSE")) ?_
      rintro ⟨elseBody, st2⟩
      simp only [blockId_g_irrelevant hid g1 g2]
    · intro b i k st hb
      obtain ⟨hid, hins, hnx⟩ := hparts b hb
      cases k with
      | zero => rfl
      | succ k =>
        rw [convertIfBranches_succ, convertIfBranches_succ]
        refine ebind_congr rfl ?_
        intro cond
        refine ebind_congr (ihS _ _ (Inputs.find_allConcrete hins _)) ?_
        rintro ⟨body, st1⟩
        refine ebind_congr (ihB _ _ _ _ hb) ?_
        rintro ⟨rest, st2⟩
        rfl
    · intro b st hb
      obtain ⟨hid, hins, hnx⟩ := hparts b hb
      rw [convertRepeatBlock_succ, convertRepeatBlock_succ,
        blockId_g_irrelevant hid g1 g2 st]
      rcases hq : blockId g2 b st with ⟨nid, st1⟩
      refine ebind_congr rfl ?_
      intro count
      refine ebind_congr (ihS _ _ (Inputs.find_allConcrete hins "DO")) ?_
      rintro ⟨body, st2⟩
      rfl
    · intro b st hb
      obtain ⟨hid, hins, hnx⟩ := hparts b hb
      rw [convertWhileBlock_succ, convertWhileBlock_succ,
        blockId_g_irrelevant hid g1 g2 st]
      rcases hq : blockId g2 b st with ⟨nid, st1⟩
      refine ebind_congr rfl ?_
      intro cond
      refine ebind_congr (ihS _ _ (Inputs.find_allConcrete hins "DO")) ?_
      rintro ⟨body, st2⟩
      rfl
    · intro b st hb
      obtain ⟨hid, hins, hnx⟩ := hparts b hb
      rw [convertForBlock_succ, convertForBlock_succ,
        blockId_g_irrelevant hid g1 g2 st]
      rcases hq : blockId g2 b st with ⟨nid, st1⟩
      by_cases hc : b.btype = "controls_for"
      · rw [if_pos hc, if_pos hc]
        refine ebind_congr rfl ?_
        intro lo
        refine ebind_congr rfl ?_
        intro hi
        refine ebind_congr rfl ?_
        intro step
        refine ebind_congr (ihS _ _ (Inputs.find_allConcrete hins "DO")) ?_
        rintro ⟨body, st2⟩
        rfl
      · rw [if_neg hc, if_neg hc]
        refine ebind_congr rfl ?_
        intro coll
        refine ebind_congr (ihS _ _ (Inputs.find_allConcrete hins "DO")) ?_
        rintro ⟨body, st2⟩
        rfl

/-- Top-level version of supply-independence. -/
theorem lowerTopBlocks_g_irrelevant (g1 g2 : Nat → String) (fuel : Nat) :
    ∀ (ws : List Block) (st : LowerState), ws.all Block.allConcrete = true →
    lowerTopBlocks g1 fuel ws st = lowerTopBlocks g2 fuel ws st := by
  intro ws
  induction ws with
  | nil => intro st _; rfl
  | cons b rest ih =>
    intro st h
    simp only [List.all_cons, Bool.and_eq_true] at h
    simp only [lowerTopBlocks]
    refine ebind_congr ((lower_g_irrelevant g1 g2 fuel).1 (.block b) st h.1) ?_
    rintro ⟨ns, st1⟩
    refine ebind_congr (ih st1 h.2) ?_
    rintro ⟨ms, st2⟩
    rfl

/-! ## Metadata bookkeeping

`sequenceFrom` diverts `set_metadata` blocks into the threaded metadata
object.  The `meta*` family lists the diverted blocks in visit order,
and the `rm*` family erases them from the graph.  The lemmas below show
that the final metadata is the left fold of `applyMetadata` over the
visited blocks (so the last one wins), and that erasing every metadata
block changes nothing about the lowering except the metadata. -/

theorem ok_pair_inj {α β : Type} {a1 a2 : α} {b1 b2 : β}
    (h : (Except.ok (a1, b1) : Except LowerError (α × β)) = .ok (a2, b2)) :
    a1 = a2 ∧ b1 = b2 := by
  have h1 : (a1, b1) = (a2, b2) := by injection h
  exact ⟨congrArg Prod.fst h1, congrArg Prod.snd h1⟩

theorem ebind_ok_inv {α β : Type} {e : Except LowerError α}
    {f : α → Except LowerError β} {r : β} (h : (e >>= f) = .ok r) :
    ∃ a, e = .ok a ∧ f a = .ok r := by
  cases e with
  | ok a => exact ⟨a, rfl, h⟩
  | error er =>
    rw [ebind_error] at h
    exact absurd h (fun hc => Except.noConfusion hc)

theorem applyMetaList_nil (m : Metadata) : applyMetaList [] m = m := rfl

theorem applyMetaList_cons (b : Block) (l : List Block) (m : Metadata) :
    applyMetaList (b :: l) m = applyMetaList l (applyMetadata b m) := rfl

theorem applyMetaList_append (l1 l2 : List Block) (m : Metadata) :
    applyMetaList (l1 ++ l2) m = applyMetaList l2 (applyMetaList l1 m) := by
  simp [applyMetaList, List.foldl_append]

/-- `applyMetadata` overwrites every metadata field, so the metadata it
is applied to is irrelevant. -/
theorem applyMetadata_const (b : Block) (m1 m2 : Metadata) :
    applyMetadata b m1 = applyMetadata b m2 := rfl

theorem metaChain_empty (fuel : Nat) : metaChain fuel .empty = [] := by
  cases fuel <;> rfl

theorem metaChain_zero (c : Chain) : metaChain 0 c = [] := by
  cases c <;> rfl

theorem metaChain_succ (fuel : Nat) (b : Block) :
    metaChain (fuel + 1) (.block b) =
    (if b.btype = "set_metadata" then b :: metaChain fuel b.next
     else metaStmt fuel b ++ metaChain fuel b.next) := rfl

theorem metaStmt_zero (b : Block) : metaStmt 0 b = [] := rfl

theorem metaStmt_succ (fuel : Nat) (b : Block) :
    metaStmt (fuel + 1) b =
    (match stmtKind b.btype with
    | .ifStmt => metaIf fuel b
    | .repeatStmt => metaBody fuel b
    | .whileStmt => metaBody fuel b
    | .forStmt => metaBody fuel b
    | _ => []) := rfl

theorem metaIf_zero (b : Block) : metaIf 0 b = [] := rfl

theorem metaIf_succ (fuel : Nat) (b : Block) :
    metaIf (fuel + 1) b =
    metaBranches fuel b 0 (ifBranchCount b) ++
      metaChain fuel (b.getInputTargetBlock "ELSE") := rfl

theorem metaBranches_nil (fuel : Nat) (b : Block) (i : Nat) :
    metaBranches fuel b i 0 = [] := by
  cases fuel <;> rfl

theorem metaBranches_zero (b : Block) (i k : Nat) :
    metaBranches 0 b i (k + 1) = [] := rfl

theorem metaBranches_succ (fuel : Nat) (b : Block) (i k : Nat) :
    metaBranches (fuel + 1) b i (k + 1) =
    metaChain fuel (b.getInputTargetBlock ("DO" ++ toString i)) ++
      metaBranches fuel b (i + 1) k := rfl

theorem metaBody_zero (b : Block) : metaBody 0 b = [] := rfl

theorem metaBody_succ (fuel : Nat) (b : Block) :
    metaBody (fuel + 1) b = metaChain fuel (b.getInputTargetBlock "DO") := rfl

theorem rmChain_empty : rmChain .empty = .empty := rfl

theorem rmChain_block (d : Option String) (i t : String)
    (fl : List (String × String)) (ins : Inputs) (nx : Chain) :
    rmChain (.block (.mk d i t fl ins nx)) =
    (if t = "set_metadata" then rmChain nx
     else .block (.mk d i t fl (rmInputs ins) (rmChain nx))) := rfl

theorem rmInputs_nil : rmInputs .nil = .nil := rfl

theorem rmInputs_cons (n : String) (tg : Chain) (rest : Inputs) :
    rmInputs (.cons n tg rest) = .cons n (rmChain tg) (rmInputs rest) := rfl

theorem rmInputs_find : ∀ (ins : Inputs) (k : String),
    Inputs.find (rmInputs ins) k = rmChain (Inputs.find ins k)
  | .nil, _ => rfl
  | .cons n tg rest, k => by
    simp only [rmInputs_cons, Inputs.find]
    split
    · rfl
    · exact rmInputs_find rest k

theorem rmInputs_has : ∀ (ins : Inputs) (k : String),
    Inputs.has (rmInputs ins) k = Inputs.has ins k
  | .nil, _ => rfl
  | .cons n tg rest, k => by
    simp only [rmInputs_cons, Inputs.has]
    rw [rmInputs_has rest k]

theorem rmInputs_count : ∀ ins : Inputs,
    Inputs.count (rmInputs ins) = Inputs.count ins
  | .nil => rfl
  | .cons n tg rest => by
    simp only [rmInputs_cons, Inputs.count, rmInputs_count rest]

theorem ifBranchCountAux_rm (d : Option String) (i t : String)
    (fl : List (String × String)) (ins : Inputs) (nx nx' : Chain) :
    ∀ n j, ifBranchCountAux (.mk d i t fl (rmInputs ins) nx') n j =
      ifBranchCountAux (.mk d i t fl ins nx) n j := by
  intro n
  induction n with
  | zero => intro j; rfl
  | succ n ih =>
    intro j
    simp only [ifBranchCountAux, Block.hasInput, Block.inputs, rmInputs_has]
    split
    · exact ih (j + 1)
    · rfl

theorem ifBranchCount_rm (d : Option String) (i t : String)
    (fl : List (String × String)) (ins : Inputs) (nx nx' : Chain) :
    ifBranchCount (.mk d i t fl (rmInputs ins) nx') =
      ifBranchCount (.mk d i t fl ins nx) := by
  simp only [ifBranchCount, Block.inputs, rmInputs_count]
  exact ifBranchCountAux_rm d i t fl ins nx nx' _ 0

/-- `blockId` ignores the metadata component of the state. -/
theorem blockId_metadata (g : Nat → String) (b : Block) (st : LowerState)
    (m : Metadata) :
    blockId g b { st with metadata := m } =
      ((blockId g b st).1, { (blockId g b st).2 with metadata := m }) := by
  rcases hbd : b.data with _ | d
  · simp only [blockId, hbd, blockIdFallback]
    by_cases hi : b.id = "" <;> simp [hi]
  · simp only [blockId, hbd, blockIdFallback]
    by_cases hde : d = ""
    · rw [if_pos hde, if_pos hde]
      by_cases hi : b.id = "" <;> simp [hi]
    · rw [if_neg hde, if_neg hde]

/-- `convertCommandBlock` ignores the metadata component of the state. -/
theorem convertCommandBlock_metadata (g : Nat → String) (b : Block)
    (st : LowerState) (m : Metadata) :
    convertCommandBlock g b { st with metadata := m } =
      ((convertCommandBlock g b st).1,
        { (convertCommandBlock g b st).2 with metadata := m }) := by
  have hq := blockId_metadata g b st m
  rcases hb : blockId g b st with ⟨nid, st1⟩
  rw [hb] at hq
  simp only [convertCommandBlock, hq, hb]
  split <;> rfl

/-- `convertFlowStatement` ignores the metadata component of the state. -/
theorem convertFlowStatement_metadata (g : Nat → String) (b : Block)
    (st : LowerState) (m : Metadata) :
    convertFlowStatement g b { st with metadata := m } =
      ((convertFlowStatement g b st).1,
        { (convertFlowStatement g b st).2 with metadata := m }) := by
  have hq := blockId_metadata g b st m
  rcases hb : blockId g b st with ⟨nid, st1⟩
  rw [hb] at hq
  simp only [convertFlowStatement, hq, hb]

/-- `convertFlowStatement` reads only the block's fields and identity,
never its inputs or "next" pointer. -/
theorem convertFlowStatement_exterior (g : Nat → String)
    (d : Option String) (i t : String) (fl : List (String × String))
    (ins ins' : Inputs) (nx nx' : Chain) (st : LowerState) :
    convertFlowStatement g (.mk d i t fl ins' nx') st =
      convertFlowStatement g (.mk d i t fl ins nx) st := rfl

/-- `convertCommandBlock` reads only the block's type, fields and
identity, never its inputs or "next" pointer. -/
theorem convertCommandBlock_exterior (g : Nat → String)
    (d : Option String) (i t : String) (fl : List (String × String))
    (ins ins' : Inputs) (nx nx' : Chain) (st : LowerState) :
    convertCommandBlock g (.mk d i t fl ins' nx') st =
      convertCommandBlock g (.mk d i t fl ins nx) st := by
  rcases eq_or_ne t "connect_robot" with h | h1
  · subst h; rfl
  rcases eq_or_ne t "set_speed" with h | h2
  · subst h; rfl
  rcases eq_or_ne t "set_acceleration" with h | h3
  · subst h; rfl
  rcases eq_or_ne t "move_to" with h | h4
  · subst h; rfl
  rcases eq_or_ne t "move_joint" with h | h5
  · subst h; rfl
  rcases eq_or_ne t "move_linear" with h | h6
  · subst h; rfl
  rcases eq_or_ne t "move_circular" with h | h7
  · subst h; rfl
  rcases eq_or_ne t "stop_motion" with h | h8
  · subst h; rfl
  rcases eq_or_ne t "wait_for_move_finish" with h | h9
  · subst h; rfl
  rcases eq_or_ne t "set_tool_coordinate" with h | h10
  · subst h; rfl
  rcases eq_or_ne t "set_user_coordinate" with h | h11
  · subst h; rfl
  rcases eq_or_ne t "get_current_joint_position" with h | h12
  · subst h; rfl
  rcases eq_or_ne t "get_current_cartesian_position" with h | h13
  · subst h; rfl
  rcases eq_or_ne t "get_robot_status" with h | h14
  · subst h; rfl
  rcases eq_or_ne t "set_digital_output" with h | h15
  · subst h; rfl
  rcases eq_or_ne t "get_digital_input" with h | h16
  · subst h; rfl
  have hpr : parameterReaders t = none := by
    simp [parameterReaders, h1, h2, h3, h4, h5, h6, h7, h8, h9, h10, h11,
      h12, h13, h14, h15, h16]
  simp only [convertCommandBlock, Block.btype, hpr]
  rw [show blockId g (Block.mk d i t fl ins' nx') st =
    blockId g (Block.mk d i t fl ins nx) st from rfl]

/-- `blockId` never touches the metadata component of the state. -/
theorem blockId_meta_pres (g : Nat → String) (b : Block) (st : LowerState) :
    ((blockId g b st).2).metadata = st.metadata := by
  rcases hbd : b.data with _ | d
  · simp only [blockId, hbd, blockIdFallback]
    by_cases hi : b.id = "" <;> simp [hi]
  · simp only [blockId, hbd, blockIdFallback]
    by_cases hde : d = ""
    · rw [if_pos hde]
      by_cases hi : b.id = "" <;> simp [hi]
    · rw [if_neg hde]

/-- `convertCommandBlock` never touches the metadata. -/
theorem convertCommandBlock_meta_pres (g : Nat → String) (b : Block)
    (st : LowerState) :
    ((convertCommandBlock g b st).2).metadata = st.metadata := by
  have hp := blockId_meta_pres g b st
  rcases hb : blockId g b st with ⟨nid, st1⟩
  rw [hb] at hp
  simp only [convertCommandBlock, hb]
  split <;> exact hp

/-- `convertFlowStatement` never touches the metadata. -/
theorem convertFlowStatement_meta_pres (g : Nat → String) (b : Block)
    (st : LowerState) :
    ((convertFlowStatement g b st).2).metadata = st.metadata := by
  have hp := blockId_meta_pres g b st
  rcases hb : blockId g b st with ⟨nid, st1⟩
  rw [hb] at hp
  simp only [convertFlowStatement, hb]
  exact hp

/-- The final metadata of every successful lowering run is the left fold
of `applyMetadata` over exactly the `set_metadata` blocks it visited, in
visit order, applied to the incoming metadata. -/
theorem meta_fold_all (g : Nat → String) : ∀ fuel : Nat,
    (∀ c st ns st1, sequenceFrom g fuel c st = .ok (ns, st1) →
      st1.metadata = applyMetaList (metaChain fuel c) st.metadata) ∧
    (∀ b st ns st1, convertStatementBlock g fuel b st = .ok (ns, st1) →
      st1.metadata = applyMetaList (metaStmt fuel b) st.metadata) ∧
    (∀ b st n st1, convertIfBlock g fuel b st = .ok (n, st1) →
      st1.metadata = applyMetaList (metaIf fuel b) st.metadata) ∧
    (∀ b i k st brs st1, convertIfBranches g fuel b i k st = .ok (brs, st1) →
      st1.metadata = applyMetaList (metaBranches fuel b i k) st.metadata) ∧
    (∀ b st n st1, convertRepeatBlock g fuel b st = .ok (n, st1) →
      st1.metadata = applyMetaList (metaBody fuel b) st.metadata) ∧
    (∀ b st n st1, convertWhileBlock g fuel b st = .ok (n, st1) →
      st1.metadata = applyMetaList (metaBody fuel b) st.metadata) ∧
    (∀ b st n st1, convertForBlock g fuel b st = .ok (n, st1) →
      st1.metadata = applyMetaList (metaBody fuel b) st.metadata) := by
  intro fuel
  induction fuel with
  | zero =>
    refine ⟨?_, ?_, ?_, ?_, ?_, ?_, ?_⟩
    · intro c st ns st1 h
      cases c with
      | empty =>
        obtain ⟨-, hst⟩ := ok_pair_inj h
        rw [metaChain_empty, applyMetaList_nil, hst]
      | block b => exact Except.noConfusion h
    · intro b st ns st1 h; exact Except.noConfusion h
    · intro b st n st1 h; exact Except.noConfusion h
    · intro b i k st brs st1 h
      cases k with
      | zero =>
        rw [convertIfBranches_nil] at h
        obtain ⟨-, hst⟩ := ok_pair_inj h
        rw [metaBranches_nil, applyMetaList_nil, hst]
      | succ k => exact Except.noConfusion h
    · intro b st n st1 h; exact Except.noConfusion h
    · intro b st n st1 h; exact Except.noConfusion h
    · intro b st n st1 h; exact Except.noConfusion h
  | succ f ih =>
    obtain ⟨ihS, ihT, ihI, ihB, ihR, ihW, ihF⟩ := ih
    refine ⟨?_, ?_, ?_, ?_, ?_, ?_, ?_⟩
    · intro c st ns st1 h
      cases c with
      | empty =>
        rw [sequenceFrom_empty] at h
        obtain ⟨-, hst⟩ := ok_pair_inj h
        rw [metaChain_empty, applyMetaList_nil, hst]
      | block b =>
        rw [sequenceFrom_succ] at h
        rw [metaChain_succ]
        by_cases hm : b.btype = "set_metadata"
        · rw [if_pos hm] at h
          rw [if_pos hm, applyMetaList_cons]
          exact ihS _ _ _ _ h
        · rw [if_neg hm] at h
          rw [if_neg hm]
          obtain ⟨⟨ns0, stA⟩, hx, h⟩ := ebind_ok_inv h
          obtain ⟨⟨ms0, stB⟩, hy, h⟩ := ebind_ok_inv h
          obtain ⟨-, hst⟩ := ok_pair_inj h
          rw [← hst, applyMetaList_append, ihS _ _ _ _ hy, ihT _ _ _ _ hx]
    · intro b st ns st1 h
      rw [convertStatementBlock_succ] at h
      rw [metaStmt_succ]
      cases hK : stmtKind b.btype <;> rw [hK] at h
      · obtain ⟨⟨n, stA⟩, hx, h⟩ := ebind_ok_inv h
        obtain ⟨-, hst⟩ := ok_pair_inj h
        rw [← hst]
        exact ihI _ _ _ _ hx
      · obtain ⟨⟨n, stA⟩, hx, h⟩ := ebind_ok_inv h
        obtain ⟨-, hst⟩ := ok_pair_inj h
        rw [← hst]
        exact ihR _ _ _ _ hx
      · obtain ⟨⟨n, stA⟩, hx, h⟩ := ebind_ok_inv h
        obtain ⟨-, hst⟩ := ok_pair_inj h
        rw [← hst]
        exact ihW _ _ _ _ hx
      · obtain ⟨⟨n, stA⟩, hx, h⟩ := ebind_ok_inv h
        obtain ⟨-, hst⟩ := ok_pair_inj h
        rw [← hst]
        exact ihF _ _ _ _ hx
      · rcases hq : convertFlowStatement g b st with ⟨n0, stA⟩
        rw [hq] at h
        obtain ⟨-, hst⟩ := ok_pair_inj h
        have hp := convertFlowStatement_meta_pres g b st
        rw [hq] at hp
        rw [← hst, applyMetaList_nil, hp]
      · rcases hq : convertCommandBlock g b st with ⟨n0, stA⟩
        rw [hq] at h
        obtain ⟨-, hst⟩ := ok_pair_inj h
        have hp := convertCommandBlock_meta_pres g b st
        rw [hq] at hp
        rw [← hst, applyMetaList_nil, hp]
      · obtain ⟨-, hst⟩ := ok_pair_inj h
        rw [← hst, applyMetaList_nil]
    · intro b st n st1 h
      rw [convertIfBlock_succ] at h
      rw [metaIf_succ]
      obtain ⟨⟨branches, stA⟩, hx, h⟩ := ebind_ok_inv h
      obtain ⟨⟨elseBody, stB⟩, hy, h⟩ := ebind_ok_inv h
      dsimp only at h
      rcases hq : blockId g b stB with ⟨nid, stC⟩
      rw [hq] at h
      obtain ⟨-, hst⟩ := ok_pair_inj h
      have hp := blockId_meta_pres g b stB
      rw [hq] at hp
      rw [← hst, applyMetaList_append, hp, ihS _ _ _ _ hy, ihB _ _ _ _ _ _ hx]
    · intro b i k st brs st1 h
      cases k with
      | zero =>
        rw [convertIfBranches_nil] at h
        obtain ⟨-, hst⟩ := ok_pair_inj h
        rw [metaBranches_nil, applyMetaList_nil, hst]
      | succ k =>
        rw [convertIfBranches_succ] at h
        rw [metaBranches_succ]
        obtain ⟨cond, hx, h⟩ := ebind_ok_inv h
        obtain ⟨⟨body, stA⟩, hy, h⟩ := ebind_ok_inv h
        obtain ⟨⟨rest, stB⟩, hz, h⟩ := ebind_ok_inv h
        obtain ⟨-, hst⟩ := ok_pair_inj h
        rw [← hst, applyMetaList_append, ihB _ _ _ _ _ _ hz, ihS _ _ _ _ hy]
    · intro b st n st1 h
      rw [convertRepeatBlock_succ] at h
      rw [metaBody_succ]
      rcases hq : blockId g b st with ⟨nid, stA⟩
      rw [hq] at h
      obtain ⟨count, hx, h⟩ := ebind_ok_inv h
      obtain ⟨⟨body, stB⟩, hy, h⟩ := ebind_ok_inv h
      obtain ⟨-, hst⟩ := ok_pair_inj h
      have hp := blockId_meta_pres g b st
      rw [hq] at hp
      rw [← hst, ihS _ _ _ _ hy, hp]
    · intro b st n st1 h
      rw [convertWhileBlock_succ] at h
      rw [metaBody_succ]
      rcases hq : blockId g b st with ⟨nid, stA⟩
      rw [hq] at h
      obtain ⟨cond, hx, h⟩ := ebind_ok_inv h
      obtain ⟨⟨body, stB⟩, hy, h⟩ := ebind_ok_inv h
      obtain ⟨-, hst⟩ := ok_pair_inj h
      have hp := blockId_meta_pres g b st
      rw [hq] at hp
      rw [← hst, ihS _ _ _ _ hy, hp]
    · intro b st n st1 h
      rw [convertForBlock_succ] at h
      rw [metaBody_succ]
      rcases hq : blockId g b st with ⟨nid, stA⟩
      rw [hq] at h
      have hp := blockId_meta_pres g b st
      rw [hq] at hp
      by_cases hc : b.btype = "controls_for"
      · rw [if_pos hc] at h
        obtain ⟨lo, hx, h⟩ := ebind_ok_inv h
        obtain ⟨hi, hy, h⟩ := ebind_ok_inv h
        obtain ⟨step, hz, h⟩ := ebind_ok_inv h
        obtain ⟨⟨body, stB⟩, hw, h⟩ := ebind_ok_inv h
        obtain ⟨-, hst⟩ := ok_pair_inj h
        rw [← hst, ihS _ _ _ _ hw, hp]
      · rw [if_neg hc] at h
        obtain ⟨coll, hx, h⟩ := ebind_ok_inv h
        obtain ⟨⟨body, stB⟩, hy, h⟩ := ebind_ok_inv h
        obtain ⟨-, hst⟩ := ok_pair_inj h
        rw [← hst, ihS _ _ _ _ hy, hp]

theorem rmBlock_mk (d : Option String) (i t : String)
    (fl : List (String × String)) (ins : Inputs) (nx : Chain) :
    rmBlock (.mk d i t fl ins nx) =
      .mk d i t fl (rmInputs ins) (rmChain nx) := rfl

set_option maxHeartbeats 2000000 in
/-- Erasing every `set_metadata` block from the graph leaves a
successful lowering run untouched except for the metadata: same nodes,
same warnings, same uid consumption, and the metadata stays at whatever
value it starts from (here an arbitrary `m`), because no metadata block
remains.  Together with `meta_fold_all` this says metadata blocks are
diverted into the metadata object and never reach the node sequence. -/
theorem lower_rm_all (g : Nat → String) : ∀ fuel : Nat,
    (∀ c e, expressionFrom fuel c = .ok e →
      expressionFrom fuel (rmChain c) = .ok e) ∧
    (∀ c st ns st1, sequenceFrom g fuel c st = .ok (ns, st1) →
      ∀ m, sequenceFrom g fuel (rmChain c) { st with metadata := m } =
        .ok (ns, { st1 with metadata := m })) ∧
    (∀ b st ns st1, convertStatementBlock g fuel b st = .ok (ns, st1) →
      ∀ m, convertStatementBlock g fuel (rmBlock b) { st with metadata := m } =
        .ok (ns, { st1 with metadata := m })) ∧
    (∀ b st n st1, convertIfBlock g fuel b st = .ok (n, st1) →
      ∀ m, convertIfBlock g fuel (rmBlock b) { st with metadata := m } =
        .ok (n, { st1 with metadata := m })) ∧
    (∀ b i k st brs st1, convertIfBranches g fuel b i k st = .ok (brs, st1) →
      ∀ m, convertIfBranches g fuel (rmBlock b) i k { st with metadata := m } =
        .ok (brs, { st1 with metadata := m })) ∧
    (∀ b st n st1, convertRepeatBlock g fuel b st = .ok (n, st1) →
      ∀ m, convertRepeatBlock g fuel (rmBlock b) { st with metadata := m } =
        .ok (n, { st1 with metadata := m })) ∧
    (∀ b st n st1, convertWhileBlock g fuel b st = .ok (n, st1) →
      ∀ m, convertWhileBlock g fuel (rmBlock b) { st with metadata := m } =
        .ok (n, { st1 with metadata := m })) ∧
    (∀ b st n st1, convertForBlock g fuel b st = .ok (n, st1) →
      ∀ m, convertForBlock g fuel (rmBlock b) { st with metadata := m } =
        .ok (n, { st1 with metadata := m })) := by
  intro fuel
  induction fuel with
  | zero =>
    refine ⟨?_, ?_, ?_, ?_, ?_, ?_, ?_, ?_⟩
    · intro c e h
      cases c with
      | empty => exact h
      | block b => exact Except.noConfusion h
    · intro c st ns st1 h m
      cases c with
      | empty =>
        obtain ⟨hns, hst⟩ := ok_pair_inj h
        rw [rmChain_empty, sequenceFrom_empty, ← hns, ← hst]
      | block b => exact Except.noConfusion h
    · intro b st ns st1 h m; exact Except.noConfusion h
    · intro b st n st1 h m; exact Except.noConfusion h
    · intro b i k st brs st1 h m
      cases k with
      | zero =>
        rw [convertIfBranches_nil] at h
        obtain ⟨hbrs, hst⟩ := ok_pair_inj h
        rw [convertIfBranches_nil, ← hbrs, ← hst]
      | succ k => exact Except.noConfusion h
    · intro b st n st1 h m; exact Except.noConfusion h
    · intro b st n st1 h m; exact Except.noConfusion h
    · intro b st n st1 h m; exact Except.noConfusion h
  | succ f ih =>
    obtain ⟨ihE, ihS, ihT, ihI, ihB, ihR, ihW, ihF⟩ := ih
    refine ⟨?_, ?_, ?_, ?_, ?_, ?_, ?_, ?_⟩
    · intro c e h
      cases c with
      | empty => exact h
      | block b =>
        obtain ⟨d, i, t, fl, ins, nx⟩ := b
        rw [expressionFrom_succ] at h
        simp only [Block.btype] at h
        cases hE : exprKind t <;> rw [hE] at h <;>
          first
          | exact Except.noConfusion h
          | (have hm : t ≠ "set_metadata" := fun hteq => by
               rw [hteq] at hE
               exact absurd hE (by decide)
             rw [rmChain_block, if_neg hm, expressionFrom_succ]
             simp only [Block.btype]
             rw [hE]
             first
             | exact h
             | (simp only [Block.getInputTargetBlock, Block.inputs,
                  rmInputs_find] at h ⊢
                repeat
                  obtain ⟨a1, hx, h⟩ := ebind_ok_inv h
                  simp only [ihE _ _ hx, ebind_ok]
                exact h))
    · intro c st ns st1 h m
      cases c with
      | empty =>
        rw [sequenceFrom_empty] at h
        obtain ⟨hns, hst⟩ := ok_pair_inj h
        rw [rmChain_empty, sequenceFrom_empty, ← hns, ← hst]
      | block b =>
        obtain ⟨d, i, t, fl, ins, nx⟩ := b
        rw [sequenceFrom_succ] at h
        simp only [Block.btype, Block.next] at h
        by_cases hm : t = "set_metadata"
        · rw [if_pos hm] at h
          rw [rmChain_block, if_pos hm]
          have h3 : sequenceFrom g f (rmChain nx) { st with metadata := m } =
              .ok (ns, { st1 with metadata := m }) := ihS _ _ _ _ h m
          have hne : sequenceFrom g f (rmChain nx) { st with metadata := m } ≠
              .error .fuelExhausted := by
            rw [h3]; exact fun hc => Except.noConfusion hc
          rw [sequenceFrom_mono g (Nat.le_succ f) hne]
          exact h3
        · rw [if_neg hm] at h
          obtain ⟨⟨ns0, stA⟩, hx, h⟩ := ebind_ok_inv h
          obtain ⟨⟨ms0, stB⟩, hy, h⟩ := ebind_ok_inv h
          obtain ⟨hns, hst⟩ := ok_pair_inj h
          rw [rmChain_block, if_neg hm, sequenceFrom_succ]
          simp only [Block.btype, Block.next]
          rw [if_neg hm]
          have hT := ihT _ _ _ _ hx m
          rw [rmBlock_mk] at hT
          simp only [hT, ebind_ok]
          have hS := ihS _ _ _ _ hy m
          simp only [hS, ebind_ok]
          rw [← hns, ← hst]
    · intro b st ns st1 h m
      obtain ⟨d, i, t, fl, ins, nx⟩ := b
      rw [convertStatementBlock_succ] at h
      simp only [Block.btype] at h
      rw [rmBlock_mk, convertStatementBlock_succ]
      simp only [Block.btype]
      cases hK : stmtKind t <;> rw [hK] at h
      · obtain ⟨⟨n0, stA⟩, hx, h⟩ := ebind_ok_inv h
        obtain ⟨hn, hst⟩ := ok_pair_inj h
        have hI := ihI _ _ _ _ hx m
        rw [rmBlock_mk] at hI
        simp only [hI, ebind_ok]
        rw [← hn, ← hst]
      · obtain ⟨⟨n0, stA⟩, hx, h⟩ := ebind_ok_inv h
        obtain ⟨hn, hst⟩ := ok_pair_inj h
        have hR := ihR _ _ _ _ hx m
        rw [rmBlock_mk] at hR
        simp only [hR, ebind_ok]
        rw [← hn, ← hst]
      · obtain ⟨⟨n0, stA⟩, hx, h⟩ := ebind_ok_inv h
        obtain ⟨hn, hst⟩ := ok_pair_inj h
        have hW := ihW _ _ _ _ hx m
        rw [rmBlock_mk] at hW
        simp only [hW, ebind_ok]
        rw [← hn, ← hst]
      · obtain ⟨⟨n0, stA⟩, hx, h⟩ := ebind_ok_inv h
        obtain ⟨hn, hst⟩ := ok_pair_inj h
        have hF := ihF _ _ _ _ hx m
        rw [rmBlock_mk] at hF
        simp only [hF, ebind_ok]
        rw [← hn, ← hst]
      · rcases hq : convertFlowStatement g (.mk d i t fl ins nx) st with ⟨n0, stA⟩
        rw [hq] at h
        obtain ⟨hn, hst⟩ := ok_pair_inj h
        have hflow : convertFlowStatement g
            (.mk d i t fl (rmInputs ins) (rmChain nx))
            { st with metadata := m } = (n0, { stA with metadata := m }) := by
          rw [convertFlowStatement_exterior g d i t fl ins (rmInputs ins) nx
            (rmChain nx) { st with metadata := m },
            convertFlowStatement_metadata g (.mk d i t fl ins nx) st m, hq]
        simp only [hflow]
        rw [← hn, ← hst]
      · rcases hq : convertCommandBlock g (.mk d i t fl ins nx) st with ⟨n0, stA⟩
        rw [hq] at h
        obtain ⟨hn, hst⟩ := ok_pair_inj h
        have hcmd : convertCommandBlock g
            (.mk d i t fl (rmInputs ins) (rmChain nx))
            { st with metadata := m } = (n0, { stA with metadata := m }) := by
          rw [convertCommandBlock_exterior g d i t fl ins (rmInputs ins) nx
            (rmChain nx) { st with metadata := m },
            convertCommandBlock_metadata g (.mk d i t fl ins nx) st m, hq]
        simp only [hcmd]
        rw [← hn, ← hst]
      · obtain ⟨hn, hst⟩ := ok_pair_inj h
        rw [← hn, ← hst]
    · intro b st n st1 h m
      obtain ⟨d, i, t, fl, ins, nx⟩ := b
      rw [convertIfBlock_succ] at h
      obtain ⟨⟨branches, stA⟩, hx, h⟩ := ebind_ok_inv h
      obtain ⟨⟨elseBody, stB⟩, hy, h⟩ := ebind_ok_inv h
      dsimp only at h
      rcases hq : blockId g (.mk d i t fl ins nx) stB with ⟨nid, stC⟩
      rw [hq] at h
      obtain ⟨hn, hst⟩ := ok_pair_inj h
      simp only [Block.getInputTargetBlock, Block.inputs] at hy
      rw [rmBlock_mk, convertIfBlock_succ]
      rw [ifBranchCount_rm d i t fl ins nx (rmChain nx)]
      have hB := ihB _ _ _ _ _ _ hx m
      rw [rmBlock_mk] at hB
      simp only [hB, ebind_ok]
      simp only [Block.getInputTargetBlock, Block.inputs, rmInputs_find]
      have hS := ihS _ _ _ _ hy m
      simp only [hS, ebind_ok]
      have hbid : blockId g (.mk d i t fl (rmInputs ins) (rmChain nx))
          { stB with metadata := m } = (nid, { stC with metadata := m }) := by
        have h1 : blockId g (.mk d i t fl (rmInputs ins) (rmChain nx))
            { stB with metadata := m } =
            blockId g (.mk d i t fl ins nx) { stB with metadata := m } := rfl
        rw [h1, blockId_metadata g (.mk d i t fl ins nx) stB m, hq]
      simp only [hbid]
      rw [← hn, ← hst]
    · intro b i k st brs st1 h m
      cases k with
      | zero =>
        rw [convertIfBranches_nil] at h
        obtain ⟨hbrs, hst⟩ := ok_pair_inj h
        rw [convertIfBranches_nil, ← hbrs, ← hst]
      | succ k =>
        obtain ⟨d, ii, t, fl, ins, nx⟩ := b
        rw [convertIfBranches_succ] at h
        simp only [Block.getInputTargetBlock, Block.inputs] at h
        obtain ⟨cond, hx, h⟩ := ebind_ok_inv h
        obtain ⟨⟨body, stA⟩, hy, h⟩ := ebind_ok_inv h
        obtain ⟨⟨rest, stB⟩, hz, h⟩ := ebind_ok_inv h
        obtain ⟨hbrs, hst⟩ := ok_pair_inj h
        rw [rmBlock_mk, convertIfBranches_succ]
        simp only [Block.getInputTargetBlock, Block.inputs, rmInputs_find]
        simp only [ihE _ _ hx, ebind_ok]
        have hS := ihS _ _ _ _ hy m
        simp only [hS, ebind_ok]
        have hB := ihB _ _ _ _ _ _ hz m
        rw [rmBlock_mk] at hB
        simp only [hB, ebind_ok]
        rw [← hbrs, ← hst]
    · intro b st n st1 h m
      obtain ⟨d, i, t, fl, ins, nx⟩ := b
      rw [convertRepeatBlock_succ] at h
      rcases hq : blockId g (.mk d i t fl ins nx) st with ⟨nid, stA⟩
      rw [hq] at h
      simp only [Block.getInputTargetBlock, Block.inputs] at h
      obtain ⟨count, hx, h⟩ := ebind_ok_inv h
      obtain ⟨⟨body, stB⟩, hy, h⟩ := ebind_ok_inv h
      obtain ⟨hn, hst⟩ := ok_pair_inj h
      rw [rmBlock_mk, convertRepeatBlock_succ]
      have hbid : blockId g (.mk d i t fl (rmInputs ins) (rmChain nx))
          { st with metadata := m } = (nid, { stA with metadata := m }) := by
        have h1 : blockId g (.mk d i t fl (rmInputs ins) (rmChain nx))
            { st with metadata := m } =
            blockId g (.mk d i t fl ins nx) { st with metadata := m } := rfl
        rw [h1, blockId_metadata g (.mk d i t fl ins nx) st m, hq]
      simp only [hbid]
      simp only [Block.getInputTargetBlock, Block.inputs, rmInputs_find]
      simp only [ihE _ _ hx, ebind_ok]
      have hS := ihS _ _ _ _ hy m
      simp only [hS, ebind_ok]
      rw [← hn, ← hst]
    · intro b st n st1 h m
      obtain ⟨d, i, t, fl, ins, nx⟩ := b
      rw [convertWhileBlock_succ] at h
      simp only [Block.getFieldValue, Block.fields] at h
      rcases hq : blockId g (.mk d i t fl ins nx) st with ⟨nid, stA⟩
      rw [hq] at h
      simp only [Block.getInputTargetBlock, Block.inputs] at h
      obtain ⟨cond, hx, h⟩ := ebind_ok_inv h
      obtain ⟨⟨body, stB⟩, hy, h⟩ := ebind_ok_inv h
      obtain ⟨hn, hst⟩ := ok_pair_inj h
      rw [rmBlock_mk, convertWhileBlock_succ]
      simp only [Block.getFieldValue, Block.fields]
      have hbid : blockId g (.mk d i t fl (rmInputs ins) (rmChain nx))
          { st with metadata := m } = (nid, { stA with metadata := m }) := by
        have h1 : blockId g (.mk d i t fl (rmInputs ins) (rmChain nx))
            { st with metadata := m } =
            blockId g (.mk d i t fl ins nx) { st with metadata := m } := rfl
        rw [h1, blockId_metadata g (.mk d i t fl ins nx) st m, hq]
      simp only [hbid]
      simp only [Block.getInputTargetBlock, Block.inputs, rmInputs_find]
      simp only [ihE _ _ hx, ebind_ok]
      have hS := ihS _ _ _ _ hy m
      simp only [hS, ebind_ok]
      rw [← hn, ← hst]
    · intro b st n st1 h m
      obtain ⟨d, i, t, fl, ins, nx⟩ := b
      rw [convertForBlock_succ] at h
      simp only [Block.btype, Block.getFieldValue, Block.fields] at h
      rcases hq : blockId g (.mk d i t fl ins nx) st with ⟨nid, stA⟩
      rw [hq] at h
      simp only [Block.getInputTargetBlock, Block.inputs] at h
      rw [rmBlock_mk, convertForBlock_succ]
      simp only [Block.btype, Block.getFieldValue, Block.fields]
      have hbid : blockId g (.mk d i t fl (rmInputs ins) (rmChain nx))
          { st with metadata := m } = (nid, { stA with metadata := m }) := by
        have h1 : blockId g (.mk d i t fl (rmInputs ins) (rmChain nx))
            { st with metadata := m } =
            blockId g (.mk d i t fl ins nx) { st with metadata := m } := rfl
        rw [h1, blockId_metadata g (.mk d i t fl ins nx) st m, hq]
      by_cases hc : t = "controls_for"
      · rw [if_pos hc] at h
        obtain ⟨lo, hx, h⟩ := ebind_ok_inv h
        obtain ⟨hi, hy, h⟩ := ebind_ok_inv h
        obtain ⟨step, hz, h⟩ := ebind_ok_inv h
        obtain ⟨⟨body, stB⟩, hw, h⟩ := ebind_ok_inv h
        obtain ⟨hn, hst⟩ := ok_pair_inj h
        rw [if_pos hc]
        simp only [hbid]
        simp only [Block.getInputTargetBlock, Block.inputs, rmInputs_find]
        simp only [ihE _ _ hx, ebind_ok]
        simp only [ihE _ _ hy, ebind_ok]
        simp only [ihE _ _ hz, ebind_ok]
        have hS := ihS _ _ _ _ hw m
        simp only [hS, ebind_ok]
        rw [← hn, ← hst]
      · rw [if_neg hc] at h
        obtain ⟨coll, hx, h⟩ := ebind_ok_inv h
        obtain ⟨⟨body, stB⟩, hy, h⟩ := ebind_ok_inv h
        obtain ⟨hn, hst⟩ := ok_pair_inj h
        rw [if_neg hc]
        simp only [hbid]
        simp only [Block.getInputTargetBlock, Block.inputs, rmInputs_find]
        simp only [ihE _ _ hx, ebind_ok]
        have hS := ihS _ _ _ _ hy m
        simp only [hS, ebind_ok]
        rw [← hn, ← hst]

theorem metaTop_nil (fuel : Nat) : metaTop fuel [] = [] := rfl

theorem metaTop_cons (fuel : Nat) (b : Block) (rest : List Block) :
    metaTop fuel (b :: rest) =
      metaChain fuel (.block b) ++ metaTop fuel rest := rfl

theorem rmTop_nil : rmTop [] = [] := rfl

theorem rmTop_cons (b : Block) (rest : List Block) :
    rmTop (b :: rest) =
      (match rmChain (.block b) with
       | .empty => rmTop rest
       | .block b2 => b2 :: rmTop rest) := rfl

/-- Workspace-level metadata fold. -/
theorem lowerTopBlocks_meta_fold (g : Nat → String) (fuel : Nat) :
    ∀ (ws : List Block) (st : LowerState) (ns : List Node) (st1 : LowerState),
    lowerTopBlocks g fuel ws st = .ok (ns, st1) →
    st1.metadata = applyMetaList (metaTop fuel ws) st.metadata := by
  intro ws
  induction ws with
  | nil =>
    intro st ns st1 h
    obtain ⟨-, hst⟩ := ok_pair_inj h
    exact congrArg LowerState.metadata hst.symm
  | cons b rest ih =>
    intro st ns st1 h
    simp only [lowerTopBlocks] at h
    obtain ⟨⟨ns0, stA⟩, hx, h⟩ := ebind_ok_inv h
    obtain ⟨⟨ms0, stB⟩, hy, h⟩ := ebind_ok_inv h
    obtain ⟨-, hst⟩ := ok_pair_inj h
    rw [metaTop_cons, applyMetaList_append, ← hst, ih _ _ _ hy,
      (meta_fold_all g fuel).1 _ _ _ _ hx]

/-- Workspace-level metadata erasure. -/
theorem lowerTopBlocks_rm (g : Nat → String) (fuel : Nat) :
    ∀ (ws : List Block) (st : LowerState) (ns : List Node) (st1 : LowerState),
    lowerTopBlocks g fuel ws st = .ok (ns, st1) →
    ∀ m, lowerTopBlocks g fuel (rmTop ws) { st with metadata := m } =
      .ok (ns, { st1 with metadata := m }) := by
  intro ws
  induction ws with
  | nil =>
    intro st ns st1 h m
    obtain ⟨hns, hst⟩ := ok_pair_inj h
    rw [rmTop_nil]
    simp only [lowerTopBlocks]
    rw [← hns, ← hst]
  | cons b rest ih =>
    intro st ns st1 h m
    simp only [lowerTopBlocks] at h
    obtain ⟨⟨ns0, stA⟩, hx, h⟩ := ebind_ok_inv h
    obtain ⟨⟨ms0, stB⟩, hy, h⟩ := ebind_ok_inv h
    obtain ⟨hns, hst⟩ := ok_pair_inj h
    have hrm := (lower_rm_all g fuel).2.1 _ _ _ _ hx m
    have hrest := ih _ _ _ hy m
    rw [rmTop_cons]
    cases hrc : rmChain (.block b) with
    | empty =>
      rw [hrc] at hrm
      rw [sequenceFrom_empty] at hrm
      obtain ⟨hns0, hstA⟩ := ok_pair_inj hrm
      dsimp only
      rw [hstA, hrest, ← hns, ← hns0, ← hst]
      rfl
    | block b2 =>
      rw [hrc] at hrm
      dsimp only
      simp only [lowerTopBlocks]
      simp only [hrm, ebind_ok]
      simp only [hrest, ebind_ok]
      rw [← hns, ← hst]

/-! ## Claim theorems -/

/-- C5 counterexample: on a workspace containing a block with neither a
`data` slot nor a workspace id, `blockId` falls back to `genUid()`, so
two invocations of `workspaceToDocument` on the same workspace state
(drawing from two different fresh-id supplies) yield different
Documents. -/
theorem lowering_uid_nondeterminism :
    workspaceToDocument uidSupply 5 [noIdBlock] =
      .ok ({ version := "1.0", metadata := {},
             sequence := [.command "uid0" "grab" none] }, []) ∧
    workspaceToDocument uidSupplyB 5 [noIdBlock] =
      .ok ({ version := "1.0", metadata := {},
             sequence := [.command "alt0" "grab" none] }, []) ∧
    ("uid0" : String) ≠ "alt0" :=
  ⟨rfl, rfl, by decide⟩

/-- C5 amended: lowering is side-effect-free, and it is deterministic on
every workspace whose blocks all carry a truthy `data` or id — which the
graphical editor guarantees for real workspaces.  On such workspaces the
lowered document does not depend on the `genUid()` id supply at all, so
two invocations of `workspaceToDocument` on the same workspace state
yield identical Documents (same metadata, same sequence, same node
ids). -/
theorem lowering_deterministic_on_concrete_ids (g1 g2 : Nat → String)
    (fuel : Nat) (ws : List Block)
    (h : ws.all Block.allConcrete = true) :
    workspaceToDocument g1 fuel ws = workspaceToDocument g2 fuel ws := by
  unfold workspaceToDocument
  rw [lowerTopBlocks_g_irrelevant g1 g2 fuel ws _ h]

/-- Witness for C5's amended statement on a concrete one-block
workspace and two different id supplies. -/
theorem lowering_deterministic_on_concrete_ids_witness :
    [grabBlock].all Block.allConcrete = true ∧
    workspaceToDocument uidSupply 5 [grabBlock] =
      workspaceToDocument uidSupplyB 5 [grabBlock] :=
  ⟨rfl, lowering_deterministic_on_concrete_ids uidSupply uidSupplyB 5
    [grabBlock] rfl⟩

/-- C1: sequence order is execution order.  `sequenceFrom` walks the
"next statement" chain depth-first and in order: lowering the chain
`c1` followed by `c2` produces exactly the node list of `c1` followed
by the node list of `c2`, with the lowering state threaded left to
right.  (Control-flow bodies are themselves `sequenceFrom` runs on the
nested sub-chains, in the same order — see the while-node theorem for
the corresponding body shape.) -/
theorem sequence_order_is_execution_order (g : Nat → String) :
    ∀ (f1 : Nat) {c1 c2 : Chain} {st st1 st2 : LowerState}
      {ns ms : List Node} {f2 : Nat},
    sequenceFrom g f1 c1 st = .ok (ns, st1) →
    sequenceFrom g f2 c2 st1 = .ok (ms, st2) →
    sequenceFrom g (f1 + f2) (appendChain c1 c2) st = .ok (ns ++ ms, st2) := by
  intro f1
  induction f1 with
  | zero =>
    intro c1 c2 st st1 st2 ns ms f2 h1 h2
    cases c1 with
    | empty =>
      rw [sequenceFrom_empty] at h1
      simp only [Except.ok.injEq, Prod.mk.injEq] at h1
      obtain ⟨hns, hst⟩ := h1
      subst hns
      subst hst
      rw [show appendChain Chain.empty c2 = c2 from rfl, Nat.zero_add]
      simpa using h2
    | block b =>
      rw [sequenceFrom_zero] at h1
      exact absurd h1 (by simp)
  | succ f ihq =>
    intro c1 c2 st st1 st2 ns ms f2 h1 h2
    cases c1 with
    | empty =>
      rw [sequenceFrom_empty] at h1
      simp only [Except.ok.injEq, Prod.mk.injEq] at h1
      obtain ⟨hns, hst⟩ := h1
      subst hns
      subst hst
      have hne : sequenceFrom g f2 c2 st ≠ .error .fuelExhausted := by
        rw [h2]; exact fun hc => Except.noConfusion hc
      rw [show appendChain Chain.empty c2 = c2 from rfl,
        sequenceFrom_mono g (Nat.le_add_left f2 (f + 1)) hne, h2]
      simp
    | block b =>
      obtain ⟨bd, bi, bt, bfl, bins, bnx⟩ := b
      rw [sequenceFrom_succ] at h1
      simp only [Block.btype, Block.next] at h1
      have harr : f + 1 + f2 = (f + f2) + 1 := by omega
      rw [show appendChain (Chain.block (.mk bd bi bt bfl bins bnx)) c2 =
        Chain.block (.mk bd bi bt bfl bins (appendChain bnx c2)) from rfl,
        harr, sequenceFrom_succ]
      simp only [Block.btype, Block.next]
      by_cases hm : bt = "set_metadata"
      · rw [if_pos hm] at h1
        rw [if_pos hm]
        exact ihq h1 h2
      · rw [if_neg hm] at h1
        rw [if_neg hm]
        cases hT : convertStatementBlock g f (.mk bd bi bt bfl bins bnx) st with
        | error e => simp [hT, ebind_error] at h1
        | ok q =>
          obtain ⟨ns0, sta⟩ := q
          simp only [hT, ebind_ok] at h1
          cases hS : sequenceFrom g f bnx sta with
          | error e => simp [hS, ebind_error] at h1
          | ok q2 =>
            obtain ⟨ns1, stb⟩ := q2
            simp only [hS, ebind_ok, Except.ok.injEq, Prod.mk.injEq] at h1
            obtain ⟨hns, hstb⟩ := h1
            subst hstb
            subst hns
            have hT' : convertStatementBlock g (f + f2)
                (.mk bd bi bt bfl bins (appendChain bnx c2)) st =
                .ok (ns0, sta) := by
              rw [(lower_ignores_next g (f + f2)).1 bd bi bt bfl bins
                (appendChain bnx c2) bnx st,
                convertStatementBlock_mono g (Nat.le_add_right f f2)
                  (by rw [hT]; exact fun hc => Except.noConfusion hc), hT]
            have hS' : sequenceFrom g (f + f2) (appendChain bnx c2) sta =
                .ok (ns1 ++ ms, st2) := ihq hS h2
            rw [hT']
            simp only [ebind_ok]
            rw [hS']
            simp [ebind_ok, List.append_assoc]

/-- Witness for C1: two concrete chains (`grab ; release` and
`power_on_servo`) lower to their node lists, and their concatenation
lowers to the concatenated node list. -/
theorem sequence_order_is_execution_order_witness :
    sequenceFrom uidSupply 4 chainA st0 =
      .ok ([.command "a1" "grab" none, .command "a2" "release" none], st0) ∧
    sequenceFrom uidSupply 3 chainB st0 =
      .ok ([.command "b1" "power_on_servo" none], st0) ∧
    sequenceFrom uidSupply 7 (appendChain chainA chainB) st0 =
      .ok ([.command "a1" "grab" none, .command "a2" "release" none] ++
        [.command "b1" "power_on_servo" none], st0) :=
  ⟨rfl, rfl,
   @sequence_order_is_execution_order uidSupply 4 chainA chainB st0 st0 st0
     [.command "a1" "grab" none, .command "a2" "release" none]
     [.command "b1" "power_on_servo" none] 3 rfl rfl⟩

/-- C9: for a statement block with an unconnected expression input,
lowering the missing input yields the literal-number expression with
value 0: `expressionFrom` of an absent block returns
`{ expr_type: 'literal_number', value: 0 }` rather than failing or
omitting the field. -/
theorem missing_expression_input_lowers_to_zero (fuel : Nat) :
    expressionFrom fuel Chain.empty = .ok (.literal_number 0) :=
  expressionFrom_empty fuel

/-- C6: lowering a while/until loop block produces a While node whose
mode is `'until'` exactly when the block's MODE field is `'UNTIL'` and
`'while'` otherwise, and whose condition is the lowering of the
condition sub-block unchanged: no negation is applied at lowering
time. -/
theorem while_until_mode_condition_unchanged (g : Nat → String)
    (fuel : Nat) (b : Block) (st : LowerState)
    (hb : b.btype = "controls_whileUntil") :
    convertStatementBlock g (fuel + 2) b st =
      (expressionFrom fuel (b.getInputTargetBlock "BOOL")) >>= (fun cond =>
        (sequenceFrom g fuel (b.getInputTargetBlock "DO") (blockId g b st).2).map
          (fun p => ([Node.whileNode (blockId g b st).1
            (if b.getFieldValue "MODE" = some "UNTIL" then "until" else "while")
            cond p.1], p.2))) := by
  have hk : stmtKind b.btype = .whileStmt := by rw [hb]; decide
  rw [convertStatementBlock_succ, hk, convertWhileBlock_succ]
  rcases hq : blockId g b st with ⟨nid, st1⟩
  cases hE : expressionFrom fuel (b.getInputTargetBlock "BOOL") with
  | error e => simp [hq, hE, Except.map, ebind_error, ebind_ok]
  | ok cond =>
    cases hS : sequenceFrom g fuel (b.getInputTargetBlock "DO") st1 with
    | error e => simp [hq, hE, hS, Except.map, ebind_error, ebind_ok]
    | ok p =>
      obtain ⟨body, st2⟩ := p
      simp [hq, hE, hS, Except.map, ebind_error, ebind_ok]

/-- Witness for C6: a concrete until-loop with MODE = UNTIL, a boolean
condition and a one-command body. -/
theorem while_until_mode_condition_unchanged_witness :
    untilBlock.btype = "controls_whileUntil" ∧
    convertStatementBlock uidSupply 7 untilBlock st0 =
      (expressionFrom 5 (untilBlock.getInputTargetBlock "BOOL")) >>= (fun cond =>
        (sequenceFrom uidSupply 5 (untilBlock.getInputTargetBlock "DO")
            (blockId uidSupply untilBlock st0).2).map
          (fun p => ([Node.whileNode (blockId uidSupply untilBlock st0).1
            (if untilBlock.getFieldValue "MODE" = some "UNTIL" then "until"
             else "while") cond p.1], p.2))) :=
  ⟨rfl, while_until_mode_condition_unchanged uidSupply 5 untilBlock st0 rfl⟩

/-- C8: validating a document containing `set_speed` yields exactly one
range error tagged to that node when the percentage lies outside the
closed interval [0,100], and no error at all inside it — the boundary
values 0 and 100 included. -/
theorem set_speed_percentage_range (p : Int) :
    validateErrors { version := "1.0", metadata := {}, sequence :=
      [.command "n1" "set_speed" (some [("percentage", .n p)])] } =
    (if 0 ≤ p ∧ p ≤ 100 then []
     else [⟨"n1", "parameter percentage out of range [0,100]"⟩]) := by
  by_cases hp : 0 ≤ p ∧ p ≤ 100 <;>
    simp [validateErrors, validateCommandParams, schemaRegistry, paramIssue, hp]

/-- C7 counterexample: for the operations the claim enumerates, the
parameter lists the spec attributes to them differ from what
`IRobotActions` declares: the three motion commands carry no speed
parameter, `ConnectRobot` has no timeout, and `StopMotion` /
`WaitForMoveFinish` take no (optional) parameter at all. -/
theorem interface_omits_spec_claimed_params :
    specSection6Ops.lookup "MoveTo" = some ["x", "y", "z", "speed"] ∧
    iRobotActionsOps.lookup "MoveTo" = some ["x", "y", "z"] ∧
    specSection6Ops.lookup "MoveJoint" =
      some ["j1", "j2", "j3", "j4", "j5", "j6", "speed"] ∧
    iRobotActionsOps.lookup "MoveJoint" =
      some ["j1", "j2", "j3", "j4", "j5", "j6"] ∧
    specSection6Ops.lookup "MoveLinear" =
      some ["x", "y", "z", "rx", "ry", "rz", "speed"] ∧
    iRobotActionsOps.lookup "MoveLinear" =
      some ["x", "y", "z", "rx", "ry", "rz"] ∧
    specSection6Ops.lookup "StopMotion" = some ["stopType?"] ∧
    iRobotActionsOps.lookup "StopMotion" = some [] ∧
    specSection6Ops.lookup "WaitForMoveFinish" = some ["timeout?"] ∧
    iRobotActionsOps.lookup "WaitForMoveFinish" = some [] ∧
    specSection6Ops.lookup "ConnectRobot" = some ["address", "port", "timeout"] ∧
    iRobotActionsOps.lookup "ConnectRobot" = some ["ipAddress", "port"] := by
  decide

/-- C7 amended: `IRobotActions` (and, identically, the abstract surface
of `BaseRobot`) declares every operation of the spec's section-6 list
and the `OnLog` log-event hook, but the motion commands take no speed
parameter (`MoveTo(x,y,z)`, `MoveJoint(j1..j6)`,
`MoveLinear(x,y,z,rx,ry,rz)`), `ConnectRobot(ipAddress,port)` has no
timeout, and `StopMotion()` / `WaitForMoveFinish()` take no
parameters. -/
theorem interface_operation_surface :
    baseRobotAbstractOps = iRobotActionsOps ∧
    iRobotActionsHasLogEvent = true ∧
    ((specSection6Ops.map Prod.fst).all
      (fun nm => (iRobotActionsOps.lookup nm).isSome)) = true ∧
    iRobotActionsOps.lookup "MoveTo" = some ["x", "y", "z"] ∧
    iRobotActionsOps.lookup "MoveJoint" =
      some ["j1", "j2", "j3", "j4", "j5", "j6"] ∧
    iRobotActionsOps.lookup "MoveLinear" =
      some ["x", "y", "z", "rx", "ry", "rz"] ∧
    iRobotActionsOps.lookup "StopMotion" = some [] ∧
    iRobotActionsOps.lookup "WaitForMoveFinish" = some [] ∧
    iRobotActionsOps.lookup "ConnectRobot" = some ["ipAddress", "port"] := by
  decide

/-- C3 counterexample: lowering a workspace whose while-loop condition
input holds a block of an unsupported expression type raises a hard
failure (an uncaught `throw` aborting the whole lowering), instead of
skipping the node with a diagnostic. -/
theorem unsupported_expression_block_raises :
    workspaceToDocument uidSupply 9 [mysteryExprWhile] =
      .error (.thrown "Unsupported expression block: mystery_expr") := rfl

/-- C3 amended: a statement block of a kind with no lowering rule is
skipped with a `console.warn` diagnostic and lowering continues with the
rest of the chain; an unsupported expression block, however, raises a
hard failure (an uncaught `throw`). -/
theorem unsupported_statement_skipped_expression_raises :
    (∀ (g : Nat → String) (fuel : Nat) (b : Block) (st : LowerState),
      b.btype ≠ "set_metadata" → stmtKind b.btype = .unsupported →
      sequenceFrom g (fuel + 2) (.block b) st =
        sequenceFrom g (fuel + 1) b.next
          { st with warnings := st.warnings ++
            ["Ignoring unsupported statement block: " ++ b.btype] }) ∧
    (∀ (fuel : Nat) (b : Block), exprKind b.btype = .unsupported →
      expressionFrom (fuel + 1) (.block b) =
        .error (.thrown ("Unsupported expression block: " ++ b.btype))) := by
  constructor
  · intro g fuel b st hm hk
    rw [sequenceFrom_succ, if_neg hm, convertStatementBlock_succ, hk]
    cases hx : sequenceFrom g (fuel + 1) b.next
        { st with warnings := st.warnings ++
          ["Ignoring unsupported statement block: " ++ b.btype] } with
    | error e => simp [hx, ebind_ok, ebind_error]
    | ok q =>
      obtain ⟨ms, st2⟩ := q
      simp [hx, ebind_ok, ebind_error]
  · intro fuel b he
    rw [expressionFrom_succ, he]

/-- Witness for C3's amended statement: a `text_print` block (no
lowering rule) is skipped with a diagnostic while its successor is still
lowered, and a `mystery_expr` expression block raises. -/
theorem unsupported_statement_skipped_expression_raises_witness :
    (unsupportedStmtBlock.btype ≠ "set_metadata" ∧
     stmtKind unsupportedStmtBlock.btype = .unsupported ∧
     sequenceFrom uidSupply 7 (.block unsupportedStmtBlock) st0 =
       sequenceFrom uidSupply 6 unsupportedStmtBlock.next
         { st0 with warnings := st0.warnings ++
           ["Ignoring unsupported statement block: " ++
             unsupportedStmtBlock.btype] }) ∧
    (exprKind mysteryExprBlock.btype = .unsupported ∧
     expressionFrom 4 (.block mysteryExprBlock) =
       .error (.thrown ("Unsupported expression block: " ++
         mysteryExprBlock.btype))) :=
  ⟨⟨by decide, by decide,
    unsupported_statement_skipped_expression_raises.1 uidSupply 5
      unsupportedStmtBlock st0 (by decide) (by decide)⟩,
   ⟨by decide,
    unsupported_statement_skipped_expression_raises.2 3 mysteryExprBlock
      (by decide)⟩⟩

/-- C10: optional parameter keys are omitted from the lowered parameter
record when their field is empty or zero (`stop_motion` drops
`stop_type`, `wait_for_move_finish` drops `timeout_ms` at 0, the query
commands drop `store_as`; `get_digital_input` still keeps `port`), and
every command in the no-parameter set lowers to a node with no
`parameters` key at all. -/
theorem optional_parameters_omitted :
    (∀ (g : Nat → String) (b : Block) (st : LowerState),
      b.btype = "stop_motion" → jsOr (b.getFieldValue "STOP_TYPE") "" = "" →
      convertCommandBlock g b st =
        (.command (blockId g b st).1 b.btype (some []), (blockId g b st).2)) ∧
    (∀ (g : Nat → String) (b : Block) (st : LowerState),
      b.btype = "wait_for_move_finish" →
      jsNumberOr (b.getFieldValue "TIMEOUT") 0 = 0 →
      convertCommandBlock g b st =
        (.command (blockId g b st).1 b.btype (some []), (blockId g b st).2)) ∧
    (∀ (g : Nat → String) (b : Block) (st : LowerState),
      (b.btype = "get_current_joint_position" ∨
       b.btype = "get_current_cartesian_position" ∨
       b.btype = "get_robot_status") →
      jsOr (b.getFieldValue "STORE") "" = "" →
      convertCommandBlock g b st =
        (.command (blockId g b st).1 b.btype (some []), (blockId g b st).2)) ∧
    (∀ (g : Nat → String) (b : Block) (st : LowerState),
      b.btype = "get_digital_input" →
      jsOr (b.getFieldValue "STORE") "" = "" →
      convertCommandBlock g b st =
        (.command (blockId g b st).1 b.btype
          (some [("port", .n (jsNumberOr (b.getFieldValue "PORT") 0))]),
         (blockId g b st).2)) ∧
    (∀ (g : Nat → String) (b : Block) (st : LowerState),
      commandsWithoutParameters.contains b.btype = true →
      convertCommandBlock g b st =
        (.command (blockId g b st).1 b.btype none, (blockId g b st).2)) := by
  refine ⟨?_, ?_, ?_, ?_, ?_⟩
  · intro g b st hb hf
    rcases hq : blockId g b st with ⟨nid, st1⟩
    simp [convertCommandBlock, parameterReaders, commandsWithoutParameters,
      hb, hf, hq]
  · intro g b st hb hf
    rcases hq : blockId g b st with ⟨nid, st1⟩
    simp [convertCommandBlock, parameterReaders, commandsWithoutParameters,
      hb, hf, hq]
  · intro g b st hb hf
    rcases hq : blockId g b st with ⟨nid, st1⟩
    rcases hb with hb | hb | hb <;>
      simp [convertCommandBlock, parameterReaders, commandsWithoutParameters,
        hb, hf, hq]
  · intro g b st hb hf
    rcases hq : blockId g b st with ⟨nid, st1⟩
    simp [convertCommandBlock, parameterReaders, commandsWithoutParameters,
      hb, hf, hq]
  · intro g b st hb
    rcases hq : blockId g b st with ⟨nid, st1⟩
    simp only [convertCommandBlock, hq]
    rw [if_pos hb]

/-- Witness for C10 at concrete blocks: `stop_motion` with no stop type,
`wait_for_move_finish` with timeout 0, a query with an empty store
field, `get_digital_input` with an empty store field, and `grab`. -/
theorem optional_parameters_omitted_witness :
    (stopPlainBlock.btype = "stop_motion" ∧
     jsOr (stopPlainBlock.getFieldValue "STOP_TYPE") "" = "" ∧
     convertCommandBlock uidSupply stopPlainBlock st0 =
       (.command "s1" "stop_motion" (some []), st0)) ∧
    (waitZeroBlock.btype = "wait_for_move_finish" ∧
     jsNumberOr (waitZeroBlock.getFieldValue "TIMEOUT") 0 = 0 ∧
     convertCommandBlock uidSupply waitZeroBlock st0 =
       (.command "s2" "wait_for_move_finish" (some []), st0)) ∧
    (jointPosBlock.btype = "get_current_joint_position" ∧
     jsOr (jointPosBlock.getFieldValue "STORE") "" = "" ∧
     convertCommandBlock uidSupply jointPosBlock st0 =
       (.command "s3" "get_current_joint_position" (some []), st0)) ∧
    (digitalInBlock.btype = "get_digital_input" ∧
     jsOr (digitalInBlock.getFieldValue "STORE") "" = "" ∧
     convertCommandBlock uidSupply digitalInBlock st0 =
       (.command "s4" "get_digital_input" (some [("port", .n 3)]), st0)) ∧
    (commandsWithoutParameters.contains grabBlock.btype = true ∧
     convertCommandBlock uidSupply grabBlock st0 =
       (.command "g1" "grab" none, st0)) :=
  ⟨⟨rfl, rfl, (optional_parameters_omitted.1 uidSupply stopPlainBlock st0
      rfl rfl).trans rfl⟩,
   ⟨rfl, rfl, (optional_parameters_omitted.2.1 uidSupply waitZeroBlock st0
      rfl rfl).trans rfl⟩,
   ⟨rfl, rfl, (optional_parameters_omitted.2.2.1 uidSupply jointPosBlock st0
      (Or.inl rfl) rfl).trans rfl⟩,
   ⟨rfl, rfl, (optional_parameters_omitted.2.2.2.1 uidSupply digitalInBlock
      st0 rfl rfl).trans rfl⟩,
   ⟨rfl, (optional_parameters_omitted.2.2.2.2 uidSupply grabBlock st0
      rfl).trans rfl⟩⟩

/-! Helper lemmas: when `blockId` returns the block's own id, every
converter stamps that id on the node it produces. -/

theorem convertIfBlock_ok_id {g : Nat → String} {fuel : Nat} {b : Block}
    {st : LowerState} {p : Node × LowerState}
    (hbid : ∀ st', blockId g b st' = (b.id, st'))
    (hp : convertIfBlock g fuel b st = .ok p) : p.1.nodeId = b.id := by
  cases fuel with
  | zero => simp [convertIfBlock_zero] at hp
  | succ f =>
    rw [convertIfBlock_succ] at hp
    cases hB : convertIfBranches g f b 0 (ifBranchCount b) st with
    | error e => simp [hB, ebind_error] at hp
    | ok q =>
      obtain ⟨branches, st1⟩ := q
      simp only [hB, ebind_ok] at hp
      cases hS : sequenceFrom g f (b.getInputTargetBlock "ELSE") st1 with
      | error e => simp [hS, ebind_error] at hp
      | ok q2 =>
        obtain ⟨elseBody, st2⟩ := q2
        simp only [hS, ebind_ok, hbid st2, Except.ok.injEq] at hp
        rw [← hp]
        rfl

theorem convertRepeatBlock_ok_id {g : Nat → String} {fuel : Nat} {b : Block}
    {st : LowerState} {p : Node × LowerState}
    (hbid : ∀ st', blockId g b st' = (b.id, st'))
    (hp : convertRepeatBlock g fuel b st = .ok p) : p.1.nodeId = b.id := by
  cases fuel with
  | zero => simp [convertRepeatBlock_zero] at hp
  | succ f =>
    rw [convertRepeatBlock_succ, hbid st] at hp
    cases hE : expressionFrom f (b.getInputTargetBlock "TIMES") with
    | error e => simp [hE, ebind_error] at hp
    | ok count =>
      cases hS : sequenceFrom g f (b.getInputTargetBlock "DO") st with
      | error e => simp [hE, hS, ebind_error, ebind_ok] at hp
      | ok q =>
        obtain ⟨body, st2⟩ := q
        simp only [hE, hS, ebind_ok, Except.ok.injEq] at hp
        rw [← hp]
        rfl

theorem convertWhileBlock_ok_id {g : Nat → String} {fuel : Nat} {b : Block}
    {st : LowerState} {p : Node × LowerState}
    (hbid : ∀ st', blockId g b st' = (b.id, st'))
    (hp : convertWhileBlock g fuel b st = .ok p) : p.1.nodeId = b.id := by
  cases fuel with
  | zero => simp [convertWhileBlock_zero] at hp
  | succ f =>
    rw [convertWhileBlock_succ, hbid st] at hp
    cases hE : expressionFrom f (b.getInputTargetBlock "BOOL") with
    | error e => simp [hE, ebind_error] at hp
    | ok cond =>
      cases hS : sequenceFrom g f (b.getInputTargetBlock "DO") st with
      | error e => simp [hE, hS, ebind_error, ebind_ok] at hp
      | ok q =>
        obtain ⟨body, st2⟩ := q
        simp only [hE, hS, ebind_ok, Except.ok.injEq] at hp
        rw [← hp]
        rfl

theorem convertForBlock_ok_id {g : Nat → String} {fuel : Nat} {b : Block}
    {st : LowerState} {p : Node × LowerState}
    (hbid : ∀ st', blockId g b st' = (b.id, st'))
    (hp : convertForBlock g fuel b st = .ok p) : p.1.nodeId = b.id := by
  cases fuel with
  | zero => simp [convertForBlock_zero] at hp
  | succ f =>
    rw [convertForBlock_succ, hbid st] at hp
    by_cases hc : b.btype = "controls_for"
    · rw [if_pos hc] at hp
      cases hE : expressionFrom f (b.getInputTargetBlock "FROM") with
      | error e => simp [hE, ebind_error] at hp
      | ok lo =>
        cases hE2 : expressionFrom f (b.getInputTargetBlock "TO") with
        | error e => simp [hE, hE2, ebind_error, ebind_ok] at hp
        | ok hi =>
          cases hE3 : expressionFrom f (b.getInputTargetBlock "BY") with
          | error e => simp [hE, hE2, hE3, ebind_error, ebind_ok] at hp
          | ok step =>
            cases hS : sequenceFrom g f (b.getInputTargetBlock "DO") st with
            | error e => simp [hE, hE2, hE3, hS, ebind_error, ebind_ok] at hp
            | ok q =>
              obtain ⟨body, st2⟩ := q
              simp only [hE, hE2, hE3, hS, ebind_ok, Except.ok.injEq] at hp
              rw [← hp]
              rfl
    · rw [if_neg hc] at hp
      cases hE : expressionFrom f (b.getInputTargetBlock "LIST") with
      | error e => simp [hE, ebind_error] at hp
      | ok coll =>
        cases hS : sequenceFrom g f (b.getInputTargetBlock "DO") st with
        | error e => simp [hE, hS, ebind_error, ebind_ok] at hp
        | ok q =>
          obtain ⟨body, st2⟩ := q
          simp only [hE, hS, ebind_ok, Except.ok.injEq] at hp
          rw [← hp]
          rfl

theorem convertFlowStatement_id {g : Nat → String} {b : Block}
    {st : LowerState} (hbid : ∀ st', blockId g b st' = (b.id, st')) :
    (convertFlowStatement g b st).1.nodeId = b.id := by
  simp [convertFlowStatement, hbid st]
  rfl

theorem convertCommandBlock_id {g : Nat → String} {b : Block}
    {st : LowerState} (hbid : ∀ st', blockId g b st' = (b.id, st')) :
    (convertCommandBlock g b st).1.nodeId = b.id := by
  simp only [convertCommandBlock, hbid st]
  split <;> rfl

/-- C4 counterexample: the lowered node id is not always the graphical
node's id: a nonempty `data` slot overrides it (`blockId` is
`block.data || block.id || genUid()`). -/
theorem node_id_data_overrides :
    workspaceToDocument uidSupply 5 [dataOverrideBlock] =
      .ok ({ version := "1.0", metadata := {},
             sequence := [.command "d9" "grab" none] }, []) ∧
    dataOverrideBlock.id = "i1" ∧ ("d9" : String) ≠ "i1" :=
  ⟨rfl, rfl, by decide⟩

/-- C4 amended: for every visual node whose `data` slot is unset (or
empty) and whose workspace id is nonempty — which the editor guarantees
for every real block — the produced IR statement node's id is the
graphical node's id copied verbatim, with no substitution and no fresh
id generation. -/
theorem statement_node_id_copied (g : Nat → String) (fuel : Nat) (b : Block)
    (st : LowerState) (hd : jsOr b.data "" = "") (hi : b.id ≠ "")
    {r : List Node × LowerState}
    (hr : convertStatementBlock g fuel b st = .ok r) :
    ∀ n ∈ r.1, n.nodeId = b.id := by
  have hbid := blockId_of_concrete hd hi g
  cases fuel with
  | zero => simp [convertStatementBlock_zero] at hr
  | succ f =>
    rw [convertStatementBlock_succ] at hr
    cases hK : stmtKind b.btype <;> rw [hK] at hr
    · cases hI : convertIfBlock g f b st with
      | error e => simp [hI, ebind_error] at hr
      | ok q =>
        obtain ⟨n, st1⟩ := q
        simp only [hI, ebind_ok, Except.ok.injEq] at hr
        rw [← hr]
        intro x hx
        rw [List.mem_singleton.mp hx]
        exact convertIfBlock_ok_id hbid hI
    · cases hI : convertRepeatBlock g f b st with
      | error e => simp [hI, ebind_error] at hr
      | ok q =>
        obtain ⟨n, st1⟩ := q
        simp only [hI, ebind_ok, Except.ok.injEq] at hr
        rw [← hr]
        intro x hx
        rw [List.mem_singleton.mp hx]
        exact convertRepeatBlock_ok_id hbid hI
    · cases hI : convertWhileBlock g f b st with
      | error e => simp [hI, ebind_error] at hr
      | ok q =>
        obtain ⟨n, st1⟩ := q
        simp only [hI, ebind_ok, Except.ok.injEq] at hr
        rw [← hr]
        intro x hx
        rw [List.mem_singleton.mp hx]
        exact convertWhileBlock_ok_id hbid hI
    · cases hI : convertForBlock g f b st with
      | error e => simp [hI, ebind_error] at hr
      | ok q =>
        obtain ⟨n, st1⟩ := q
        simp only [hI, ebind_ok, Except.ok.injEq] at hr
        rw [← hr]
        intro x hx
        rw [List.mem_singleton.mp hx]
        exact convertForBlock_ok_id hbid hI
    · rcases hF : convertFlowStatement g b st with ⟨n, st1⟩
      rw [hF] at hr
      simp only [Except.ok.injEq] at hr
      rw [← hr]
      intro x hx
      rw [List.mem_singleton.mp hx]
      have := @convertFlowStatement_id g b st hbid
      rw [hF] at this
      exact this
    · rcases hF : convertCommandBlock g b st with ⟨n, st1⟩
      rw [hF] at hr
      simp only [Except.ok.injEq] at hr
      rw [← hr]
      intro x hx
      rw [List.mem_singleton.mp hx]
      have := @convertCommandBlock_id g b st hbid
      rw [hF] at this
      exact this
    · simp only [Except.ok.injEq] at hr
      rw [← hr]
      intro x hx
      simp at hx

/-- Witness for C4's amended statement at a concrete `grab` block. -/
theorem statement_node_id_copied_witness :
    jsOr grabBlock.data "" = "" ∧ grabBlock.id ≠ "" ∧
    convertStatementBlock uidSupply 3 grabBlock st0 =
      .ok ([.command "g1" "grab" none], st0) ∧
    (∀ n ∈ [Node.command "g1" "grab" none], n.nodeId = grabBlock.id) :=
  ⟨rfl, by decide, rfl,
   statement_node_id_copied uidSupply 3 grabBlock st0 rfl (by decide) rfl⟩

/-- C2: every `set_metadata` block, wherever it appears (top-level chain
or nested inside any control-flow body), is diverted into
`Document.metadata` and never appears as a node in the lowered sequence;
with several metadata blocks the last one visited in traversal order
wins.  Formally, for every successful lowering: (1) the document
metadata is the `applyMetadata` fold over exactly the `set_metadata`
blocks visited, in visit order; (2) lowering the workspace with every
metadata block erased (`rmTop`) yields the same sequence and the same
diagnostics, only the metadata reverts to empty — so no metadata block
contributes a sequence node; (3) when the visited metadata blocks end in
`b`, the document metadata is exactly `applyMetadata b {}`
(last-seen-wins, the earlier blocks are overwritten entirely). -/
theorem metadata_diverted_last_seen_wins (g : Nat → String) (fuel : Nat)
    (ws : List Block) (doc : Document) (warns : List String)
    (h : workspaceToDocument g fuel ws = .ok (doc, warns)) :
    doc.metadata = applyMetaList (metaTop fuel ws) {} ∧
    workspaceToDocument g fuel (rmTop ws) =
      .ok ({ doc with metadata := {} }, warns) ∧
    (∀ l b, metaTop fuel ws = l ++ [b] →
      doc.metadata = applyMetadata b {}) := by
  unfold workspaceToDocument at h
  rcases hlo : lowerTopBlocks g fuel ws
      { metadata := {}, warnings := [], nextUid := 0 } with e | ⟨ns, st⟩
  · rw [hlo] at h; exact Except.noConfusion h
  · rw [hlo] at h
    obtain ⟨hdoc, hwarns⟩ := ok_pair_inj h
    have hfold : st.metadata = applyMetaList (metaTop fuel ws) {} :=
      lowerTopBlocks_meta_fold g fuel ws _ _ _ hlo
    refine ⟨?_, ?_, ?_⟩
    · rw [← hdoc]; exact hfold
    · have hrm := lowerTopBlocks_rm g fuel ws _ _ _ hlo ({} : Metadata)
      have hrm2 : lowerTopBlocks g fuel (rmTop ws)
          { metadata := {}, warnings := [], nextUid := 0 } =
          .ok (ns, { st with metadata := ({} : Metadata) }) := hrm
      unfold workspaceToDocument
      rw [hrm2, ← hdoc, ← hwarns]
    · intro l b hl
      rw [← hdoc]
      show st.metadata = applyMetadata b {}
      rw [hfold, hl, applyMetaList_append]
      exact applyMetadata_const b (applyMetaList l {}) {}

/-- Witness for C2 on a workspace whose single top-level chain is
`set_metadata(fanuc); grab; set_metadata(kuka); release`: the kuka
metadata block (the last one visited) wins, neither metadata block
contributes a sequence node, and erasing them changes only the
metadata. -/
theorem metadata_diverted_last_seen_wins_witness :
    workspaceToDocument uidSupply 6 [metaTwiceHead] =
      .ok ({ version := "1.0",
             metadata := { robot_brand := some "kuka",
                           ns := some "GeneratedWorkflows",
                           class_name := some "RobotProgram",
                           method_name := some "Run",
                           attach_console_logger := some false },
             sequence := [.command "g1" "grab" none,
                          .command "r1" "release" none] }, []) ∧
    ({ robot_brand := some "kuka", ns := some "GeneratedWorkflows",
       class_name := some "RobotProgram", method_name := some "Run",
       attach_console_logger := some false } : Metadata) =
      applyMetadata kukaMetaBlock {} ∧
    workspaceToDocument uidSupply 6 (rmTop [metaTwiceHead]) =
      .ok ({ version := "1.0", metadata := {},
             sequence := [.command "g1" "grab" none,
                          .command "r1" "release" none] }, []) := by
  have h : workspaceToDocument uidSupply 6 [metaTwiceHead] =
      .ok ({ version := "1.0",
             metadata := { robot_brand := some "kuka",
                           ns := some "GeneratedWorkflows",
                           class_name := some "RobotProgram",
                           method_name := some "Run",
                           attach_console_logger := some false },
             sequence := [.command "g1" "grab" none,
                          .command "r1" "release" none] }, []) := rfl
  obtain ⟨h1, h2, h3⟩ :=
    metadata_diverted_last_seen_wins uidSupply 6 [metaTwiceHead] _ _ h
  exact ⟨h, h3 [metaTwiceHead] kukaMetaBlock rfl, h2⟩

end RoboBlocks
